import Mathlib

/-!
Verification development for the notification orchestration engine
(`functions-python`): the category classifier and interval policy
(`orchestrators/notification_logic.py`), the orchestration driver
(`orchestrators/notification_orchestrator.py`), and the parallel batch
generation and chunked persistence pipelines
(`data/email_batch_generator.py`, `data/chat_batch_generator.py`).

The Python code is shallowly embedded: timestamps are integers of seconds
(Python `datetime`/`timedelta` comparisons are exact on seconds), strings
holding timestamps are modelled by `TsStr` (either parseable to a moment
or not, mirroring `datetime.fromisoformat` which raises `ValueError` on an
unparseable string), fallible code returns `Except`, and every store or
LLM interaction is a parameter (an oracle) of the embedded function.
User-document ids are a type parameter `υ` since the Python code treats
them opaquely.
-/

namespace BossApp

/-- Python exception payloads are modelled as their message strings. -/
abbrev PyErr := String

/-- Timestamp-bearing string field: a non-empty string that either parses
with `datetime.fromisoformat` to a moment `t` (seconds since epoch) or
fails to parse.  Absent / `None` / empty-string fields are modelled as
`Option TsStr = none` because the Python code tests them with truthiness. -/
inductive TsStr where
  | invalid : TsStr
  | valid : Int → TsStr
deriving DecidableEq, Repr

/-- Embedding of `datetime.fromisoformat(s.replace('Z', '+00:00'))`:
returns the parsed moment or raises `ValueError`. -/
def fromisoformat : TsStr → Except PyErr Int
  | TsStr.valid t => Except.ok t
  | TsStr.invalid => Except.error "ValueError: Invalid isoformat string"

/-- Value of the `notification_state` field of a user document, as seen by
`should_send_notification` (notification_logic.py lines 94-99): absent,
present but failing `NotificationState(**d)` validation, or validated with
`notification_count` and `last_notification_at` (a string field that may
itself be unparseable). -/
inductive NSField where
  | absent : NSField
  | invalid : NSField
  | valid : Int → Option TsStr → NSField
deriving DecidableEq, Repr

/-- Embedding of notification_logic.py lines 94-102: `NotificationState(**d)`
with fallback to the defaults (`notification_count = 0`,
`last_notification_at = None`) when the field is absent (`.get(...,{})`
yields `{}`, whose validation gives the defaults) or fails validation
(the `except` branch). -/
def parse_notification_state : NSField → Int × Option TsStr
  | NSField.valid c l => (c, l)
  | _ => (0, none)

/-- The user-document fields read by the classifier, the interval policy
and the driver's categorization loop.  `fcmToken` and `email` model
`.get(..., '')` (missing and empty coincide under truthiness/strip);
`email_unsubscribed` models `.get('email_unsubscribed', False)`. -/
structure UserData where
  createdAt : Option TsStr
  lastActivityAt : Option TsStr
  notificationPermissionStatus : Option String
  fcmToken : String
  email_unsubscribed : Bool
  email : String
  notification_state : NSField
deriving DecidableEq, Repr

/-- The six user categories (`UserCategory` Literal in notification_logic.py). -/
inductive UserCategory where
  | EMAIL_ONLY_USER
  | NEW_USER_PUSH
  | NEW_USER_EMAIL
  | ACTIVE_USER_PUSH
  | ACTIVE_USER_EMAIL
  | INACTIVE_USER_EMAIL
deriving DecidableEq, Repr

/-- The literal string of a category, as stored in task `scenario` fields. -/
def UserCategory.toStr : UserCategory → String
  | .EMAIL_ONLY_USER => "EMAIL_ONLY_USER"
  | .NEW_USER_PUSH => "NEW_USER_PUSH"
  | .NEW_USER_EMAIL => "NEW_USER_EMAIL"
  | .ACTIVE_USER_PUSH => "ACTIVE_USER_PUSH"
  | .ACTIVE_USER_EMAIL => "ACTIVE_USER_EMAIL"
  | .INACTIVE_USER_EMAIL => "INACTIVE_USER_EMAIL"

/-- Embedding of `CATEGORY_INTERVALS` from notification_logic.py lines 31-74, with each
`timedelta` converted to its exact count of seconds. -/
def CATEGORY_INTERVALS : UserCategory → List Int
  | .EMAIL_ONLY_USER => [3600, 21600, 86400, 172800, 604800]
  | .NEW_USER_PUSH => [3600, 10800, 21600, 86400, 259200]
  | .NEW_USER_EMAIL => [3600, 21600, 86400, 172800, 604800]
  | .ACTIVE_USER_PUSH => [3600, 10800, 21600, 86400, 259200]
  | .ACTIVE_USER_EMAIL => [3600, 21600, 86400, 172800, 604800]
  | .INACTIVE_USER_EMAIL => [3600, 86400, 172800, 604800, 1209600]

/-- Python list indexing `l[i]` for a possibly negative index `i`
(negative indices count from the end; out of range raises `IndexError`). -/
def pyListGet (l : List Int) (i : Int) : Except PyErr Int :=
  let j : Int := if 0 ≤ i then i else (l.length : Int) + i
  if 0 ≤ j then
    match l.get? j.toNat with
    | some x => Except.ok x
    | none => Except.error "IndexError: list index out of range"
  else Except.error "IndexError: list index out of range"

/-- Embedding of `should_send_notification` (notification_logic.py lines
77-136).  `now` is `datetime.now(timezone.utc)`.  The function can raise
(`Except.error`) only through `datetime.fromisoformat` on an unparseable
timestamp string; every other malformed input takes a logged fallback. -/
def should_send_notification (user_data : UserData) (category : UserCategory)
    (now : Int) : Except PyErr Bool :=
  let ns := parse_notification_state user_data.notification_state
  let notification_count := ns.1
  let last_notification_at := ns.2
  let intervals := CATEGORY_INTERVALS category
  if notification_count = 0 then
    match user_data.createdAt with
    | none => Except.ok false
    | some s =>
      match fromisoformat s with
      | Except.error e => Except.error e
      | Except.ok created_at =>
        Except.ok (decide (intervals.getD 0 0 ≤ now - created_at))
  else
    match last_notification_at with
    | none => Except.ok false
    | some s =>
      match fromisoformat s with
      | Except.error e => Except.error e
      | Except.ok last_sent =>
        match pyListGet intervals (min notification_count ((intervals.length : Int) - 1)) with
        | Except.error e => Except.error e
        | Except.ok required_interval =>
          Except.ok (decide (required_interval ≤ now - last_sent))

/-- Embedding of `is_inactive` (notification_logic.py lines 187-209): a
missing `lastActivityAt` means never logged in (not inactive); an
unparseable one is caught and treated as not inactive. -/
def is_inactive (user_data : UserData) (days : Int) (now : Int) : Bool :=
  match user_data.lastActivityAt with
  | none => false
  | some s =>
    match fromisoformat s with
    | Except.error _ => false
    | Except.ok last_activity => decide (86400 * days < now - last_activity)

/-- Embedding of `is_new_user` (notification_logic.py lines 163-184). -/
def is_new_user (user_data : UserData) (days : Int) (now : Int) : Bool :=
  match user_data.createdAt with
  | none => false
  | some s =>
    match fromisoformat s with
    | Except.error _ => false
    | Except.ok created_at => decide (now - created_at ≤ 86400 * days)

/-- Push-channel availability (notification_logic.py lines 300-303):
permission granted and a truthy FCM token. -/
def has_push (user_data : UserData) : Bool :=
  user_data.notificationPermissionStatus == some "granted" && user_data.fcmToken != ""

/-- Email-channel availability (notification_logic.py line 304). -/
def has_email (user_data : UserData) : Bool :=
  !user_data.email_unsubscribed

/-- Embedding of `determine_user_category` (notification_logic.py lines
263-368).  The single store read, `get_unread_count(db, user_id)`, is the
`unread_count` argument.  The Python `if` chain with `return`s is encoded
with explicit fall-through (`p4`, `p5`) so that a priority whose channel
branches both miss falls to the next priority exactly as in the source. -/
def determine_user_category (user_data : UserData) (unread_count : Int)
    (now : Int) : Option UserCategory :=
  let hp := has_push user_data
  let he := has_email user_data
  if !hp && !he then none
  else if decide (0 < unread_count) && is_inactive user_data 10 now then
    if he then some UserCategory.INACTIVE_USER_EMAIL else none
  else
    let p5 : Option UserCategory :=
      if hp then some UserCategory.ACTIVE_USER_PUSH
      else if he then some UserCategory.ACTIVE_USER_EMAIL
      else none
    let p4 : Option UserCategory :=
      if is_new_user user_data 14 now then
        if hp then some UserCategory.NEW_USER_PUSH
        else if he then some UserCategory.NEW_USER_EMAIL
        else p5
      else p5
    match user_data.lastActivityAt with
    | none =>
      if he then some UserCategory.EMAIL_ONLY_USER
      else if hp then some UserCategory.NEW_USER_PUSH
      else p4
    | some _ => p4

/-!
Batch models (`data/batch_models.py`).  The id type `υ` is a parameter;
`scenario` fields hold the category literal strings.
-/

/-- Model of `UserEmailTask` from batch_models.py. -/
structure UserEmailTask (υ : Type) where
  user_id : υ
  user_email : String
  scenario : String
deriving DecidableEq, Repr

/-- Model of `GeneratedEmail` from batch_models.py. -/
structure GeneratedEmail (υ : Type) where
  user_id : υ
  email_id : String
  user_email : String
  subject : String
deriving DecidableEq, Repr

/-- Model of `FailedGeneration` from batch_models.py. -/
structure FailedGeneration (υ : Type) where
  user_id : υ
  user_email : String
  scenario : String
  error_message : String
deriving DecidableEq, Repr

/-- Model of `BatchGenerationResult` from batch_models.py. -/
structure BatchGenerationResult (υ : Type) where
  successful : List (GeneratedEmail υ)
  failed : List (FailedGeneration υ)
  total_count : Nat
  success_count : Nat
  failure_count : Nat
deriving DecidableEq, Repr

/-- Model of `UserChatTask` from batch_models.py. -/
structure UserChatTask (υ : Type) where
  user_id : υ
  fcm_token : String
  scenario : String
  thread_id : Option String
deriving DecidableEq, Repr

/-- Model of `GeneratedChatMessage` from batch_models.py. -/
structure GeneratedChatMessage (υ : Type) where
  user_id : υ
  message_id : String
  thread_id : String
  message_preview : String
deriving DecidableEq, Repr

/-- Model of `FailedChatGeneration` from batch_models.py. -/
structure FailedChatGeneration (υ : Type) where
  user_id : υ
  fcm_token : String
  scenario : String
  error_message : String
deriving DecidableEq, Repr

/-- Model of `ChatBatchGenerationResult` from batch_models.py. -/
structure ChatBatchGenerationResult (υ : Type) where
  successful : List (GeneratedChatMessage υ)
  failed : List (FailedChatGeneration υ)
  total_count : Nat
  success_count : Nat
  failure_count : Nat
deriving DecidableEq, Repr

/-- Title and body returned by the email generation collaborators
(`generate_first_email_notification` / `generate_ongoing_email_notification`). -/
structure EmailContent where
  title : String
  body : String
deriving DecidableEq, Repr

/-- The prepared email document dict (email_batch_generator.py lines 150-156). -/
structure EmailData where
  «to» : String
  subject : String
  body_markdown : String
  state : String
  createdAt : String
deriving DecidableEq, Repr

/-- Message text returned by the push generation collaborators
(`generate_first_push_notification` / `generate_ongoing_push_notification`). -/
structure ChatContent where
  message : String
deriving DecidableEq, Repr

/-- The prepared chat message dict (chat_batch_generator.py lines 152-161);
the one-element OpenAI content array `[{type: text, text}]` is collapsed to
its text. -/
structure MessageData where
  role : String
  text : String
  timestamp : String
deriving DecidableEq, Repr

/-!
`chunk_list` (identical in email_batch_generator.py lines 37-57 and
chat_batch_generator.py lines 40-60).  The Python loop
`for i in range(0, len(items), chunk_size)` is encoded structurally with a
fuel argument equal to the list length (enough because each step consumes
at least one element when `chunk_size ≥ 1`); `chunk_size = 0` would raise
`ValueError` in Python and is mapped to the empty result, unused by any
caller (the callers pass 500, 250 or the batch size).
-/

/-- Fuel-driven worker for `chunk_list`. -/
def chunk_list_go (fuel : Nat) (items : List α) (chunk_size : Nat) : List (List α) :=
  match fuel, items with
  | _, [] => []
  | 0, _ => []
  | fuel + 1, l => l.take chunk_size :: chunk_list_go fuel (l.drop chunk_size) chunk_size

/-- Embedding of `chunk_list(items, chunk_size)`: split a list into chunks of at most
`chunk_size` elements, preserving order. -/
def chunk_list (items : List α) (chunk_size : Nat) : List (List α) :=
  if chunk_size = 0 then [] else chunk_list_go items.length items chunk_size

/-!
Per-unit content generators.  All store / LLM interactions are oracle
arguments: `user_get` is the outcome of `users/{id}.get().exists` (it may
itself raise), `gen_first` / `gen_ongoing` are the outcomes of the two AI
generation collaborators (which may raise), `nowIso` is the server-set
creation timestamp string.  Every Python statement of the source bodies
sits inside the outer `try`/`except Exception` (logging and Sentry calls
are non-raising no-ops in the model), so the embedded functions are total
and return a sum, never an exception.
-/

/-- Embedding of `_generate_single_email` (email_batch_generator.py lines
60-189).  Note the source's scenario routing list contains the literal
`"INACTIVE_USER"`, not `"INACTIVE_USER_EMAIL"`. -/
def generate_single_email [ToString υ] (task : UserEmailTask υ)
    (user_get : Except PyErr Bool) (gen_first gen_ongoing : Except PyErr EmailContent)
    (nowIso : String) : (UserEmailTask υ × EmailData) ⊕ FailedGeneration υ :=
  let validated : Except PyErr Unit :=
    match user_get with
    | Except.error e => Except.error e
    | Except.ok true => Except.ok ()
    | Except.ok false => Except.error ("User not found: " ++ toString task.user_id)
  match validated with
  | Except.error e =>
    Sum.inr ⟨task.user_id, task.user_email, task.scenario,
      "Failed to validate user exists: " ++ e⟩
  | Except.ok _ =>
    let email_content : Except PyErr EmailContent :=
      if task.scenario = "EMAIL_ONLY_USER" then gen_first
      else if task.scenario ∈ ["NEW_USER_EMAIL", "ACTIVE_USER_EMAIL", "INACTIVE_USER"] then
        gen_ongoing
      else Except.error ("Unknown scenario: " ++ task.scenario)
    match email_content with
    | Except.error e =>
      Sum.inr ⟨task.user_id, task.user_email, task.scenario,
        "Failed to generate AI content: " ++ e⟩
    | Except.ok c =>
      Sum.inl (task, ⟨task.user_email, c.title, c.body, "PLANNED", nowIso⟩)

/-- Embedding of `_generate_single_chat_message` (chat_batch_generator.py
lines 63-194), with the same oracle conventions. -/
def generate_single_chat_message [ToString υ] (task : UserChatTask υ)
    (user_get : Except PyErr Bool) (gen_first gen_ongoing : Except PyErr ChatContent)
    (nowIso : String) : (UserChatTask υ × MessageData) ⊕ FailedChatGeneration υ :=
  let validated : Except PyErr Unit :=
    match user_get with
    | Except.error e => Except.error e
    | Except.ok true => Except.ok ()
    | Except.ok false => Except.error ("User not found: " ++ toString task.user_id)
  match validated with
  | Except.error e =>
    Sum.inr ⟨task.user_id, task.fcm_token, task.scenario,
      "Failed to validate user exists: " ++ e⟩
  | Except.ok _ =>
    let chat_content : Except PyErr ChatContent :=
      if task.scenario = "NEW_USER_PUSH" then gen_first
      else if task.scenario ∈ ["ACTIVE_USER_PUSH"] then gen_ongoing
      else Except.error ("Unknown scenario: " ++ task.scenario)
    match chat_content with
    | Except.error e =>
      Sum.inr ⟨task.user_id, task.fcm_token, task.scenario,
        "Failed to generate AI content: " ++ e⟩
    | Except.ok c =>
      Sum.inl (task, ⟨"assistant", c.message, nowIso⟩)

/-!
Chunked persistence writers.  The store is an oracle: `content_commit i`
is the outcome of the atomic `batch.commit()` of content chunk `i`
(`none` = commit succeeds, `some e` = it raises `e`); `counter_commit i`
tells whether the separate counter-update batch after chunk `i` commits;
`doc_id k` is the store-generated id of the `k`-th document reference
created inside a chunk.  Each run also yields a trace of observable store
events, for stating ordering invariants.
-/

/-- Observable store events of one writer/pipeline run: an attempted
atomic content-chunk commit, and an attempted counter-update batch.
`user_ids` lists the user of each item in the chunk, in chunk order. -/
inductive WEvent (υ : Type) where
  | contentCommit (chunk_index : Nat) (user_ids : List υ) (ok : Bool)
  | counterUpdate (user_ids : List υ) (ok : Bool)
deriving DecidableEq, Repr

/-- Operations added to one atomic Firestore write batch. -/
inductive BatchOp (υ : Type) where
  | set_email (user_id : υ)
  | set_thread (user_id : υ) (thread_id : String)
  | set_message (user_id : υ) (thread_id : String)
  | update_thread (user_id : υ) (thread_id : String)
deriving DecidableEq, Repr

/-- Embedding of `_update_notification_counters_for_chunk` (identical in
email_batch_generator.py lines 192-245 and chat_batch_generator.py lines
197-250): an empty chunk returns before building a batch; otherwise one
counter-update batch (`notification_count` incremented by 1 and
`last_notification_at` set, for every user of the chunk) is committed.
A commit failure is logged at highest severity and NOT re-raised, so the
function is total and only reports the event. -/
def update_notification_counters_for_chunk (user_ids : List υ)
    (counter_commit_ok : Bool) : List (WEvent υ) :=
  if user_ids.isEmpty then []
  else [WEvent.counterUpdate user_ids counter_commit_ok]

/-- Batch-building loop of one email chunk (email_batch_generator.py lines
287-303): one `batch.set` per prepared email, and one `GeneratedEmail`
result per prepared email; `k` numbers the document references created. -/
def email_chunk_build (doc_id : Nat → String) :
    List (UserEmailTask υ × EmailData) → Nat →
    List (BatchOp υ) × List (GeneratedEmail υ)
  | [], _ => ([], [])
  | (task, email_data) :: rest, k =>
    let built := email_chunk_build doc_id rest (k + 1)
    (BatchOp.set_email task.user_id :: built.1,
     GeneratedEmail.mk task.user_id (doc_id k) task.user_email email_data.subject :: built.2)

/-- Chunk loop of `_write_emails_batch` (email_batch_generator.py lines
283-332): build the chunk's batch, commit it; on success accumulate the
chunk's results and immediately run the counter-update batch for the
chunk's users; on failure log and re-raise (later chunks never run). -/
def write_emails_batch_go (doc_id : Nat → String)
    (content_commit : Nat → Option PyErr) (counter_commit : Nat → Bool) :
    List (List (UserEmailTask υ × EmailData)) → Nat →
    Except PyErr (List (GeneratedEmail υ)) × List (WEvent υ)
  | [], _ => (Except.ok [], [])
  | chunk :: rest, chunk_idx =>
    let built := email_chunk_build doc_id chunk 0
    let user_ids := chunk.map fun tc => tc.1.user_id
    match content_commit chunk_idx with
    | none =>
      let counter_events := update_notification_counters_for_chunk user_ids (counter_commit chunk_idx)
      let next := write_emails_batch_go doc_id content_commit counter_commit rest (chunk_idx + 1)
      (next.1.map fun r => built.2 ++ r,
       WEvent.contentCommit chunk_idx user_ids true :: counter_events ++ next.2)
    | some e =>
      (Except.error e, [WEvent.contentCommit chunk_idx user_ids false])

/-- Embedding of `_write_emails_batch` (email_batch_generator.py lines
248-334): an empty input returns immediately; otherwise the prepared
emails are split into chunks of 500 and written chunk by chunk. -/
def write_emails_batch (doc_id : Nat → String)
    (prepared_emails : List (UserEmailTask υ × EmailData))
    (content_commit : Nat → Option PyErr) (counter_commit : Nat → Bool) :
    Except PyErr (List (GeneratedEmail υ)) × List (WEvent υ) :=
  if prepared_emails.isEmpty then (Except.ok [], [])
  else write_emails_batch_go doc_id content_commit counter_commit
    (chunk_list prepared_emails 500) 0

/-- Write phase of one generation batch in `generate_emails_in_parallel`
(email_batch_generator.py lines 498-522): call `_write_emails_batch` on
the batch's successful generations; if it raises, every task given to it
— committed chunks included — is marked failed with a
`Batch write failed` record; nothing is retried. -/
def email_write_phase (doc_id : Nat → String)
    (successful_emails : List (UserEmailTask υ × EmailData))
    (content_commit : Nat → Option PyErr) (counter_commit : Nat → Bool) :
    (List (GeneratedEmail υ) × List (FailedGeneration υ)) × List (WEvent υ) :=
  if successful_emails.isEmpty then (([], []), [])
  else
    match write_emails_batch doc_id successful_emails content_commit counter_commit with
    | (Except.ok written_emails, evs) => ((written_emails, []), evs)
    | (Except.error e, evs) =>
      (([], successful_emails.map fun tc =>
          FailedGeneration.mk tc.1.user_id tc.1.user_email tc.1.scenario
            ("Batch write failed: " ++ e)), evs)

/-!
Parallel batch runner.  The per-task oracles are packed in an
environment; `run_single_email env t` is the outcome of one worker.
`ThreadPoolExecutor`/`as_completed` delivers each submitted future exactly
once, in a nondeterministic completion order: the embedding takes the
completion order as a `reorder` parameter (theorems assume it permutes
the batch).  The `except` branch around `future.result()` (defence in
depth) is unreachable because the per-unit generator is total.
-/

/-- Per-task oracle environment for the email pipeline. -/
structure EmailGenEnv (υ : Type) where
  user_get : UserEmailTask υ → Except PyErr Bool
  gen_first : UserEmailTask υ → Except PyErr EmailContent
  gen_ongoing : UserEmailTask υ → Except PyErr EmailContent
  nowIso : String

/-- One worker's outcome for one email task. -/
def run_single_email [ToString υ] (env : EmailGenEnv υ) (t : UserEmailTask υ) :
    (UserEmailTask υ × EmailData) ⊕ FailedGeneration υ :=
  generate_single_email t (env.user_get t) (env.gen_first t) (env.gen_ongoing t) env.nowIso

/-- Result-collection loop of `_generate_batch` (email_batch_generator.py
lines 358-417), fed the futures' completion order: each outcome is routed
into the success list or the failure list. -/
def generate_email_batch [ToString υ] (env : EmailGenEnv υ) :
    List (UserEmailTask υ) →
    List (UserEmailTask υ × EmailData) × List (FailedGeneration υ)
  | [] => ([], [])
  | t :: rest =>
    let acc := generate_email_batch env rest
    match run_single_email env t with
    | Sum.inl p => (p :: acc.1, acc.2)
    | Sum.inr failure => (acc.1, failure :: acc.2)

/-- Batch loop of `generate_emails_in_parallel` (email_batch_generator.py
lines 481-525): for batch `i`, generate in parallel (completion order
`reorder i batch`), write the successes, collect the successes and the
write-phase plus generation failures.  The store oracles take the batch
index first. -/
def run_email_batches [ToString υ] (env : EmailGenEnv υ) (doc_id : Nat → String)
    (reorder : Nat → List (UserEmailTask υ) → List (UserEmailTask υ))
    (content_commit : Nat → Nat → Option PyErr) (counter_commit : Nat → Nat → Bool) :
    List (List (UserEmailTask υ)) → Nat →
    (List (GeneratedEmail υ) × List (FailedGeneration υ)) × List (WEvent υ)
  | [], _ => (([], []), [])
  | batch_tasks :: rest, batch_idx =>
    let generated := generate_email_batch env (reorder batch_idx batch_tasks)
    let phase := email_write_phase doc_id generated.1
        (content_commit batch_idx) (counter_commit batch_idx)
    let next := run_email_batches env doc_id reorder content_commit counter_commit rest (batch_idx + 1)
    ((phase.1.1 ++ next.1.1, (phase.1.2 ++ generated.2) ++ next.1.2), phase.2 ++ next.2)

/-- Embedding of `generate_emails_in_parallel` (email_batch_generator.py
lines 420-544): split the tasks into batches of `batch_size`, process
them sequentially, aggregate the `BatchGenerationResult`. -/
def generate_emails_in_parallel [ToString υ] (env : EmailGenEnv υ)
    (doc_id : Nat → String)
    (reorder : Nat → List (UserEmailTask υ) → List (UserEmailTask υ))
    (content_commit : Nat → Nat → Option PyErr) (counter_commit : Nat → Nat → Bool)
    (user_tasks : List (UserEmailTask υ)) (batch_size : Nat) :
    BatchGenerationResult υ × List (WEvent υ) :=
  let batches := chunk_list user_tasks batch_size
  let run := run_email_batches env doc_id reorder content_commit counter_commit batches 0
  (⟨run.1.1, run.1.2, user_tasks.length, run.1.1.length, run.1.2.length⟩, run.2)

/-!
Chat (push-channel) persistence writer, `chat_batch_generator.py`.  The
thread pre-scan of STEP 1 consults the store's thread-existence oracle
`thread_store : (user_id, thread_id) → Bool`; the STEP 2 loop then uses
and updates that map, creating each missing thread at most once per chunk.
-/

/-- STEP 2 batch-building loop of one chat chunk (chat_batch_generator.py
lines 348-396): per message, a `set_thread` only when the thread is not
yet known to exist (then marked created), a `set_message` with a fresh
document id, and an `update_thread`; results carry a 50-character
preview. -/
def chat_chunk_build [DecidableEq υ] (doc_id : Nat → String) :
    List (UserChatTask υ × MessageData) → ((υ × String) → Bool) → Nat →
    List (BatchOp υ) × List (GeneratedChatMessage υ)
  | [], _, _ => ([], [])
  | (task, message_data) :: rest, thread_exists, k =>
    let thread_id := task.thread_id.getD "main"
    let key : υ × String := (task.user_id, thread_id)
    let create_ops : List (BatchOp υ) :=
      if thread_exists key then [] else [BatchOp.set_thread task.user_id thread_id]
    let thread_exists' : (υ × String) → Bool :=
      fun key' => if key' = key then true else thread_exists key'
    let built := chat_chunk_build doc_id rest thread_exists' (k + 1)
    (create_ops ++ BatchOp.set_message task.user_id thread_id ::
       BatchOp.update_thread task.user_id thread_id :: built.1,
     GeneratedChatMessage.mk task.user_id (doc_id k) thread_id
       (message_data.text.take 50) :: built.2)

/-- Chunk loop of `_write_chat_messages_batch` (chat_batch_generator.py
lines 300-426): pre-scan thread existence (the oracle), build and commit
the chunk's batch; on success accumulate results and immediately run the
counter-update batch; on failure log and re-raise. -/
def write_chat_messages_batch_go [DecidableEq υ] (doc_id : Nat → String)
    (thread_store : (υ × String) → Bool)
    (content_commit : Nat → Option PyErr) (counter_commit : Nat → Bool) :
    List (List (UserChatTask υ × MessageData)) → Nat →
    Except PyErr (List (GeneratedChatMessage υ)) × List (WEvent υ)
  | [], _ => (Except.ok [], [])
  | chunk :: rest, chunk_idx =>
    let built := chat_chunk_build doc_id chunk thread_store 0
    let user_ids := chunk.map fun tc => tc.1.user_id
    match content_commit chunk_idx with
    | none =>
      let counter_events := update_notification_counters_for_chunk user_ids (counter_commit chunk_idx)
      let next :=
        write_chat_messages_batch_go doc_id thread_store content_commit counter_commit rest (chunk_idx + 1)
      (next.1.map fun r => built.2 ++ r,
       WEvent.contentCommit chunk_idx user_ids true :: counter_events ++ next.2)
    | some e =>
      (Except.error e, [WEvent.contentCommit chunk_idx user_ids false])

/-- Embedding of `_write_chat_messages_batch` (chat_batch_generator.py
lines 253-428): chunks of 250, written chunk by chunk. -/
def write_chat_messages_batch [DecidableEq υ] (doc_id : Nat → String)
    (thread_store : (υ × String) → Bool)
    (prepared_messages : List (UserChatTask υ × MessageData))
    (content_commit : Nat → Option PyErr) (counter_commit : Nat → Bool) :
    Except PyErr (List (GeneratedChatMessage υ)) × List (WEvent υ) :=
  if prepared_messages.isEmpty then (Except.ok [], [])
  else write_chat_messages_batch_go doc_id thread_store content_commit counter_commit
    (chunk_list prepared_messages 250) 0

/-- Write phase of one generation batch in
`generate_chat_messages_in_parallel` (chat_batch_generator.py lines
596-620): on a write exception every task given to the writer is marked
failed; nothing is retried. -/
def chat_write_phase [DecidableEq υ] (doc_id : Nat → String)
    (thread_store : (υ × String) → Bool)
    (successful_messages : List (UserChatTask υ × MessageData))
    (content_commit : Nat → Option PyErr) (counter_commit : Nat → Bool) :
    (List (GeneratedChatMessage υ) × List (FailedChatGeneration υ)) × List (WEvent υ) :=
  if successful_messages.isEmpty then (([], []), [])
  else
    match write_chat_messages_batch doc_id thread_store successful_messages
        content_commit counter_commit with
    | (Except.ok written_messages, evs) => ((written_messages, []), evs)
    | (Except.error e, evs) =>
      (([], successful_messages.map fun tc =>
          FailedChatGeneration.mk tc.1.user_id tc.1.fcm_token tc.1.scenario
            ("Batch write failed: " ++ e)), evs)

/-- Per-task oracle environment for the chat pipeline. -/
structure ChatGenEnv (υ : Type) where
  user_get : UserChatTask υ → Except PyErr Bool
  gen_first : UserChatTask υ → Except PyErr ChatContent
  gen_ongoing : UserChatTask υ → Except PyErr ChatContent
  nowIso : String

/-- One worker's outcome for one chat task. -/
def run_single_chat [ToString υ] (env : ChatGenEnv υ) (t : UserChatTask υ) :
    (UserChatTask υ × MessageData) ⊕ FailedChatGeneration υ :=
  generate_single_chat_message t (env.user_get t) (env.gen_first t) (env.gen_ongoing t) env.nowIso

/-- Result-collection loop of `_generate_batch` (chat_batch_generator.py
lines 452-511), fed the futures' completion order. -/
def generate_chat_batch [ToString υ] (env : ChatGenEnv υ) :
    List (UserChatTask υ) →
    List (UserChatTask υ × MessageData) × List (FailedChatGeneration υ)
  | [] => ([], [])
  | t :: rest =>
    let acc := generate_chat_batch env rest
    match run_single_chat env t with
    | Sum.inl p => (p :: acc.1, acc.2)
    | Sum.inr failure => (acc.1, failure :: acc.2)

/-- Batch loop of `generate_chat_messages_in_parallel`
(chat_batch_generator.py lines 579-623). -/
def run_chat_batches [ToString υ] [DecidableEq υ] (env : ChatGenEnv υ)
    (doc_id : Nat → String) (thread_store : (υ × String) → Bool)
    (reorder : Nat → List (UserChatTask υ) → List (UserChatTask υ))
    (content_commit : Nat → Nat → Option PyErr) (counter_commit : Nat → Nat → Bool) :
    List (List (UserChatTask υ)) → Nat →
    (List (GeneratedChatMessage υ) × List (FailedChatGeneration υ)) × List (WEvent υ)
  | [], _ => (([], []), [])
  | batch_tasks :: rest, batch_idx =>
    let generated := generate_chat_batch env (reorder batch_idx batch_tasks)
    let phase := chat_write_phase doc_id thread_store generated.1
        (content_commit batch_idx) (counter_commit batch_idx)
    let next :=
      run_chat_batches env doc_id thread_store reorder content_commit counter_commit rest (batch_idx + 1)
    ((phase.1.1 ++ next.1.1, (phase.1.2 ++ generated.2) ++ next.1.2), phase.2 ++ next.2)

/-- Embedding of `generate_chat_messages_in_parallel`
(chat_batch_generator.py lines 514-642). -/
def generate_chat_messages_in_parallel [ToString υ] [DecidableEq υ]
    (env : ChatGenEnv υ) (doc_id : Nat → String)
    (thread_store : (υ × String) → Bool)
    (reorder : Nat → List (UserChatTask υ) → List (UserChatTask υ))
    (content_commit : Nat → Nat → Option PyErr) (counter_commit : Nat → Nat → Bool)
    (user_tasks : List (UserChatTask υ)) (batch_size : Nat) :
    ChatBatchGenerationResult υ × List (WEvent υ) :=
  let batches := chunk_list user_tasks batch_size
  let run := run_chat_batches env doc_id thread_store reorder content_commit counter_commit batches 0
  (⟨run.1.1, run.1.2, user_tasks.length, run.1.1.length, run.1.2.length⟩, run.2)

/-!
Orchestration driver, `orchestrators/notification_orchestrator.py`.
-/

/-- Threshold of the soft wall-clock budget
(notification_orchestrator.py line 138). -/
def max_duration_minutes : ℚ := 20

/-- Embedding of the closure `check_execution_time`
(notification_orchestrator.py lines 140-169): given the alerted flag and
the elapsed minutes at a phase boundary, returns whether a warning-level
alert is emitted now and the new flag.  It is a total function: it never
raises and never interrupts the run. -/
def check_execution_time (slow_execution_alerted : Bool) (elapsed_minutes : ℚ) :
    Bool × Bool :=
  if slow_execution_alerted then (false, true)
  else if max_duration_minutes ≤ elapsed_minutes then (true, true)
  else (false, slow_execution_alerted)

/-- The sequence of budget checks a run performs, one per phase boundary
(notification_orchestrator.py lines 181, 207, 270, 293, 315), given the
elapsed minutes at each boundary: the emitted-alert flag per boundary. -/
def run_time_checks (slow_execution_alerted : Bool) :
    List ℚ → List Bool
  | [] => []
  | elapsed :: rest =>
    let (emitted, alerted') := check_execution_time slow_execution_alerted elapsed
    emitted :: run_time_checks alerted' rest

/-- Outcome of the STEP 2 loop body for one user
(notification_orchestrator.py lines 217-260). -/
inductive UserStepOutcome (υ : Type) where
  | emailTask (t : UserEmailTask υ)
  | pushTask (t : UserChatTask υ)
  | skippedTiming
  | skippedNoChannel
deriving DecidableEq, Repr

/-- One iteration of the STEP 2 filter-and-categorize loop
(notification_orchestrator.py lines 217-260): classify, check timing,
then build the channel task — falling back to a skip when the email
address or FCM token is blank.  `unread_count` is the store's
`get_unread_count` value for this user. -/
def categorize_user_step (user_id : υ) (user_data : UserData)
    (unread_count : Int) (now : Int) : Except PyErr (UserStepOutcome υ) :=
  match determine_user_category user_data unread_count now with
  | none => Except.ok UserStepOutcome.skippedNoChannel
  | some category =>
    match should_send_notification user_data category now with
    | Except.error e => Except.error e
    | Except.ok false => Except.ok UserStepOutcome.skippedTiming
    | Except.ok true =>
      if category ∈ [UserCategory.EMAIL_ONLY_USER, UserCategory.NEW_USER_EMAIL,
          UserCategory.ACTIVE_USER_EMAIL, UserCategory.INACTIVE_USER_EMAIL] then
        let user_email := user_data.email.trim
        if user_email = "" then Except.ok UserStepOutcome.skippedNoChannel
        else Except.ok (UserStepOutcome.emailTask ⟨user_id, user_email, category.toStr⟩)
      else
        let fcm_token := user_data.fcmToken.trim
        if fcm_token = "" then Except.ok UserStepOutcome.skippedNoChannel
        else Except.ok (UserStepOutcome.pushTask ⟨user_id, fcm_token, category.toStr, none⟩)

/-- The STEP 2 loop over all fetched users
(notification_orchestrator.py lines 212-261), producing the email task
list, the push task list, `skipped_timing` and `skipped_no_channel`.
`unread` is the per-user store read. -/
def categorize_users (unread : υ → Int) (now : Int) :
    List (υ × UserData) →
    Except PyErr (List (UserEmailTask υ) × List (UserChatTask υ) × Nat × Nat)
  | [] => Except.ok ([], [], 0, 0)
  | (user_id, user_data) :: rest =>
    match categorize_user_step user_id user_data (unread user_id) now with
    | Except.error e => Except.error e
    | Except.ok outcome =>
      match categorize_users unread now rest with
      | Except.error e => Except.error e
      | Except.ok (email_tasks, push_tasks, skipped_timing, skipped_no_channel) =>
        match outcome with
        | UserStepOutcome.emailTask t =>
          Except.ok (t :: email_tasks, push_tasks, skipped_timing, skipped_no_channel)
        | UserStepOutcome.pushTask t =>
          Except.ok (email_tasks, t :: push_tasks, skipped_timing, skipped_no_channel)
        | UserStepOutcome.skippedTiming =>
          Except.ok (email_tasks, push_tasks, skipped_timing + 1, skipped_no_channel)
        | UserStepOutcome.skippedNoChannel =>
          Except.ok (email_tasks, push_tasks, skipped_timing, skipped_no_channel + 1)

/-- Projection of a trace onto its attempted content-chunk commits. -/
def is_content_commit : WEvent υ → Bool
  | WEvent.contentCommit _ _ _ => true
  | WEvent.counterUpdate _ _ => false

/-- Ordering discipline of a persistence trace: it decomposes into chunk
blocks, and a counter-update batch appears only immediately after the
successful content commit of the same users' chunk — never before a
commit, never after a failed one, and never detached from its chunk. -/
inductive CounterOrdered {υ : Type} : List (WEvent υ) → Prop where
  | nil : CounterOrdered []
  | pair : ∀ (chunk_index : Nat) (user_ids : List υ) (k : Bool)
      (rest : List (WEvent υ)), CounterOrdered rest →
      CounterOrdered (WEvent.contentCommit chunk_index user_ids true ::
        WEvent.counterUpdate user_ids k :: rest)
  | solo : ∀ (chunk_index : Nat) (user_ids : List υ) (ok : Bool)
      (rest : List (WEvent υ)), CounterOrdered rest →
      CounterOrdered (WEvent.contentCommit chunk_index user_ids ok :: rest)

/-!
Theorems.
-/

/-- A counter-ordered trace never starts with a counter update. -/
theorem CounterOrdered.not_counter_head (u : List υ) (k : Bool)
    (l : List (WEvent υ)) (h : CounterOrdered (WEvent.counterUpdate u k :: l)) :
    False := by
  cases h

/-- Counter-ordered traces are closed under concatenation. -/
theorem CounterOrdered.append (l1 l2 : List (WEvent υ))
    (h1 : CounterOrdered l1) (h2 : CounterOrdered l2) :
    CounterOrdered (l1 ++ l2) := by
  induction h1 with
  | nil => exact h2
  | pair i u k rest hrest ih => exact CounterOrdered.pair i u k _ ih
  | solo i u b rest hrest ih => exact CounterOrdered.solo i u b _ ih

/-- In a counter-ordered trace, whatever precedes a counter-update batch
ends with the successful content commit of the same users. -/
theorem CounterOrdered.counter_preceded_by_commit (l : List (WEvent υ))
    (h : CounterOrdered l) :
    ∀ (xs : List (WEvent υ)) (u : List υ) (k : Bool) (ys : List (WEvent υ)),
      l = xs ++ WEvent.counterUpdate u k :: ys →
      ∃ i, xs.getLast? = some (WEvent.contentCommit i u true) := by
  induction h with
  | nil =>
    intro xs u k ys hx
    exact absurd hx (by simp)
  | pair i u' k' rest hrest ih =>
    intro xs u k ys hx
    match xs, hx with
    | [], hx => exact absurd (List.head_eq_of_cons_eq hx) (by simp)
    | [x], hx =>
      obtain ⟨hx1, hx2⟩ := List.cons.inj hx
      obtain ⟨hx2, hx3⟩ := List.cons.inj hx2
      subst hx1
      cases hx2
      exact ⟨i, rfl⟩
    | x :: x' :: xs', hx =>
      obtain ⟨hx1, hx2⟩ := List.cons.inj hx
      obtain ⟨hx2, hx3⟩ := List.cons.inj hx2
      obtain ⟨j, hj⟩ := ih xs' u k ys hx3
      refine ⟨j, ?_⟩
      rcases xs' with _ | ⟨y, ys'⟩
      · rw [hx3] at hrest
        exact absurd hrest (fun hc => CounterOrdered.not_counter_head _ _ _ hc)
      · simpa using hj
  | solo i u' b rest hrest ih =>
    intro xs u k ys hx
    match xs, hx with
    | [], hx => exact absurd (List.head_eq_of_cons_eq hx) (by simp)
    | x :: xs', hx =>
      obtain ⟨hx1, hx2⟩ := List.cons.inj hx
      obtain ⟨j, hj⟩ := ih xs' u k ys hx2
      refine ⟨j, ?_⟩
      rcases xs' with _ | ⟨y, ys'⟩
      · rw [hx2] at hrest
        exact absurd hrest (fun hc => CounterOrdered.not_counter_head _ _ _ hc)
      · simpa using hj

/-- C3: `determine_user_category` returns `INACTIVE_USER_EMAIL` if and
only if the unread count is positive, the user is inactive beyond the
threshold (10 days), and the email channel is available; and whenever
those trigger conditions hold without the email channel — in particular
when only push is available — the result is `none`, never a push
category. -/
theorem determine_user_category_inactive_email_iff (u : UserData)
    (unread_count now : Int) :
    (determine_user_category u unread_count now = some UserCategory.INACTIVE_USER_EMAIL ↔
      0 < unread_count ∧ is_inactive u 10 now = true ∧ has_email u = true) ∧
    (0 < unread_count ∧ is_inactive u 10 now = true ∧ has_email u = false →
      determine_user_category u unread_count now = none) := by
  cases hhe : has_email u <;> cases hhp : has_push u <;>
    by_cases hu : 0 < unread_count <;> cases hin : is_inactive u 10 now <;>
    cases hla : u.lastActivityAt <;> cases hnu : is_new_user u 14 now <;>
    simp [determine_user_category, hhe, hhp, hu, hin, hla, hnu]

/-- C8 (part): for a user whose `lastActivityAt` is null the classifier
returns `EMAIL_ONLY_USER` when the email channel is available, otherwise
`NEW_USER_PUSH` when push is available; and for a user with no channel at
all it returns `none` and the driver's categorization step produces
`skippedNoChannel` — zero tasks for that user. -/
theorem never_logged_in_classification (user_id : υ) (u : UserData)
    (unread_count now : Int) :
    (u.lastActivityAt = none → has_email u = true →
      determine_user_category u unread_count now = some UserCategory.EMAIL_ONLY_USER) ∧
    (u.lastActivityAt = none → has_email u = false → has_push u = true →
      determine_user_category u unread_count now = some UserCategory.NEW_USER_PUSH) ∧
    (has_push u = false → has_email u = false →
      determine_user_category u unread_count now = none ∧
      categorize_user_step user_id u unread_count now =
        Except.ok UserStepOutcome.skippedNoChannel) := by
  refine ⟨fun hla hhe => ?_, fun hla hhe hhp => ?_, fun hhp hhe => ?_⟩
  · have hin : is_inactive u 10 now = false := by simp [is_inactive, hla]
    cases hhp : has_push u <;>
      simp [determine_user_category, hhe, hhp, hin, hla]
  · have hin : is_inactive u 10 now = false := by simp [is_inactive, hla]
    simp [determine_user_category, hhe, hhp, hin, hla]
  · have hcat : determine_user_category u unread_count now = none := by
      simp [determine_user_category, hhe, hhp]
    exact ⟨hcat, by simp [categorize_user_step, hcat]⟩

/-- Shape of every outcome of `_generate_single_email`: a success pair
carrying the original task, or a failure record carrying the task's
identity fields. -/
theorem generate_single_email_cases [ToString υ] (task : UserEmailTask υ)
    (user_get : Except PyErr Bool) (gen_first gen_ongoing : Except PyErr EmailContent)
    (nowIso : String) :
    (∃ d, generate_single_email task user_get gen_first gen_ongoing nowIso =
      Sum.inl (task, d)) ∨
    (∃ m, generate_single_email task user_get gen_first gen_ongoing nowIso =
      Sum.inr ⟨task.user_id, task.user_email, task.scenario, m⟩) := by
  unfold generate_single_email
  rcases user_get with e | b
  · exact Or.inr ⟨_, rfl⟩
  · cases b
    · exact Or.inr ⟨_, rfl⟩
    · by_cases h1 : task.scenario = "EMAIL_ONLY_USER" <;>
        by_cases h2 : task.scenario ∈ ["NEW_USER_EMAIL", "ACTIVE_USER_EMAIL", "INACTIVE_USER"] <;>
        rcases gen_first with e1 | c1 <;> rcases gen_ongoing with e2 | c2 <;>
        simp [h1, h2]

/-- Shape of every outcome of `_generate_single_chat_message`. -/
theorem generate_single_chat_cases [ToString υ] (task : UserChatTask υ)
    (user_get : Except PyErr Bool) (gen_first gen_ongoing : Except PyErr ChatContent)
    (nowIso : String) :
    (∃ d, generate_single_chat_message task user_get gen_first gen_ongoing nowIso =
      Sum.inl (task, d)) ∨
    (∃ m, generate_single_chat_message task user_get gen_first gen_ongoing nowIso =
      Sum.inr ⟨task.user_id, task.fcm_token, task.scenario, m⟩) := by
  unfold generate_single_chat_message
  rcases user_get with e | b
  · exact Or.inr ⟨_, rfl⟩
  · cases b
    · exact Or.inr ⟨_, rfl⟩
    · by_cases h1 : task.scenario = "NEW_USER_PUSH" <;>
        by_cases h2 : task.scenario = "ACTIVE_USER_PUSH" <;>
        rcases gen_first with e1 | c1 <;> rcases gen_ongoing with e2 | c2 <;>
        simp [h1, h2]

/-- A worker success carries the submitted task itself. -/
theorem run_single_email_inl [ToString υ] (env : EmailGenEnv υ)
    (t : UserEmailTask υ) (p : UserEmailTask υ × EmailData)
    (h : run_single_email env t = Sum.inl p) : p.1 = t := by
  rcases generate_single_email_cases t (env.user_get t) (env.gen_first t)
      (env.gen_ongoing t) env.nowIso with ⟨d, hd⟩ | ⟨m, hm⟩
  · rw [run_single_email, hd] at h
    rw [← Sum.inl.inj h]
  · rw [run_single_email, hm] at h
    exact absurd h (by simp)

/-- A worker failure carries the submitted task's identity fields. -/
theorem run_single_email_inr [ToString υ] (env : EmailGenEnv υ)
    (t : UserEmailTask υ) (f : FailedGeneration υ)
    (h : run_single_email env t = Sum.inr f) :
    f.user_id = t.user_id ∧ f.user_email = t.user_email ∧ f.scenario = t.scenario := by
  rcases generate_single_email_cases t (env.user_get t) (env.gen_first t)
      (env.gen_ongoing t) env.nowIso with ⟨d, hd⟩ | ⟨m, hm⟩
  · rw [run_single_email, hd] at h
    exact absurd h (by simp)
  · rw [run_single_email, hm] at h
    rw [← Sum.inr.inj h]
    exact ⟨rfl, rfl, rfl⟩

/-- A chat worker success carries the submitted task itself. -/
theorem run_single_chat_inl [ToString υ] (env : ChatGenEnv υ)
    (t : UserChatTask υ) (p : UserChatTask υ × MessageData)
    (h : run_single_chat env t = Sum.inl p) : p.1 = t := by
  rcases generate_single_chat_cases t (env.user_get t) (env.gen_first t)
      (env.gen_ongoing t) env.nowIso with ⟨d, hd⟩ | ⟨m, hm⟩
  · rw [run_single_chat, hd] at h
    rw [← Sum.inl.inj h]
  · rw [run_single_chat, hm] at h
    exact absurd h (by simp)

/-- A chat worker failure carries the submitted task's identity fields. -/
theorem run_single_chat_inr [ToString υ] (env : ChatGenEnv υ)
    (t : UserChatTask υ) (f : FailedChatGeneration υ)
    (h : run_single_chat env t = Sum.inr f) :
    f.user_id = t.user_id ∧ f.fcm_token = t.fcm_token ∧ f.scenario = t.scenario := by
  rcases generate_single_chat_cases t (env.user_get t) (env.gen_first t)
      (env.gen_ongoing t) env.nowIso with ⟨d, hd⟩ | ⟨m, hm⟩
  · rw [run_single_chat, hd] at h
    exact absurd h (by simp)
  · rw [run_single_chat, hm] at h
    rw [← Sum.inr.inj h]
    exact ⟨rfl, rfl, rfl⟩

/-- C5: for every task and every behavior of the store and of the
generation collaborator — including any of them raising — the per-unit
generators return either a success pair `(task, payload)` or a typed
failure record carrying the task's user identity (and, for email, its
address), never propagating an exception (the embedded functions are
total sums for all oracle values); and absence of the user record yields
exactly the `User not found` failure. -/
theorem generate_single_total [ToString υ] (task : UserEmailTask υ)
    (ct : UserChatTask υ) (user_get cg_user_get : Except PyErr Bool)
    (gen_first gen_ongoing : Except PyErr EmailContent)
    (cgen_first cgen_ongoing : Except PyErr ChatContent) (nowIso : String) :
    ((∃ p, generate_single_email task user_get gen_first gen_ongoing nowIso =
        Sum.inl (task, p)) ∨
     (∃ m, generate_single_email task user_get gen_first gen_ongoing nowIso =
        Sum.inr ⟨task.user_id, task.user_email, task.scenario, m⟩)) ∧
    (user_get = Except.ok false →
      generate_single_email task user_get gen_first gen_ongoing nowIso =
        Sum.inr ⟨task.user_id, task.user_email, task.scenario,
          "Failed to validate user exists: User not found: " ++ toString task.user_id⟩) ∧
    ((∃ p, generate_single_chat_message ct cg_user_get cgen_first cgen_ongoing nowIso =
        Sum.inl (ct, p)) ∨
     (∃ m, generate_single_chat_message ct cg_user_get cgen_first cgen_ongoing nowIso =
        Sum.inr ⟨ct.user_id, ct.fcm_token, ct.scenario, m⟩)) ∧
    (cg_user_get = Except.ok false →
      generate_single_chat_message ct cg_user_get cgen_first cgen_ongoing nowIso =
        Sum.inr ⟨ct.user_id, ct.fcm_token, ct.scenario,
          "Failed to validate user exists: User not found: " ++ toString ct.user_id⟩) := by
  refine ⟨generate_single_email_cases task user_get gen_first gen_ongoing nowIso, ?_,
    generate_single_chat_cases ct cg_user_get cgen_first cgen_ongoing nowIso, ?_⟩
  · intro h; subst h; rfl
  · intro h; subst h; rfl

/-- Every category's interval schedule has five entries. -/
theorem CATEGORY_INTERVALS_length (cat : UserCategory) :
    (CATEGORY_INTERVALS cat).length = 5 := by
  cases cat <;> rfl

/-- Python indexing at a non-negative in-range index is plain list lookup. -/
theorem pyListGet_nonneg (l : List Int) (i : Int) (h0 : 0 ≤ i)
    (h1 : i.toNat < l.length) : pyListGet l i = Except.ok (l.getD i.toNat 0) := by
  have hj : (if 0 ≤ i then i else (l.length : Int) + i) = i := if_pos h0
  rcases hget : l.get? i.toNat with _ | x
  · exact absurd (List.get?_eq_none.mp hget) (by omega)
  · unfold pyListGet
    rw [hj, if_pos h0, hget, List.getD_eq_getElem?_getD, ← List.get?_eq_getElem?, hget]
    rfl

/-- C4: `should_send_notification` is eligible exactly when the elapsed
time reaches the schedule entry at index `min(count, len(schedule)-1)`:
with `count = 0` the elapsed time runs from registration (`createdAt`)
against the first interval; with `count ≥ 1` it runs from
`last_notification_at`; and a positive count with no
`last_notification_at` yields not-eligible (logged, not guessed). -/
theorem should_send_notification_interval (u : UserData) (cat : UserCategory)
    (now t : Int) :
    ((parse_notification_state u.notification_state).1 = 0 →
      u.createdAt = some (TsStr.valid t) →
      should_send_notification u cat now =
        Except.ok (decide ((CATEGORY_INTERVALS cat).getD 0 0 ≤ now - t))) ∧
    (1 ≤ (parse_notification_state u.notification_state).1 →
      (parse_notification_state u.notification_state).2 = some (TsStr.valid t) →
      should_send_notification u cat now =
        Except.ok (decide ((CATEGORY_INTERVALS cat).getD
          (min (parse_notification_state u.notification_state).1
            ((CATEGORY_INTERVALS cat).length - 1 : Int)).toNat 0 ≤ now - t))) ∧
    (1 ≤ (parse_notification_state u.notification_state).1 →
      (parse_notification_state u.notification_state).2 = none →
      should_send_notification u cat now = Except.ok false) := by
  refine ⟨fun hc hca => ?_, fun hc hla => ?_, fun hc hla => ?_⟩
  · unfold should_send_notification
    simp [hc, hca, fromisoformat]
  · have hne : (parse_notification_state u.notification_state).1 ≠ 0 := by omega
    have hlen : ((CATEGORY_INTERVALS cat).length : Int) - 1 = 4 := by
      rw [CATEGORY_INTERVALS_length]; rfl
    have h0 : 0 ≤ min (parse_notification_state u.notification_state).1
        (((CATEGORY_INTERVALS cat).length : Int) - 1) := by
      rw [hlen]; omega
    have h1 : (min (parse_notification_state u.notification_state).1
        (((CATEGORY_INTERVALS cat).length : Int) - 1)).toNat <
        (CATEGORY_INTERVALS cat).length := by
      rw [hlen, CATEGORY_INTERVALS_length]; omega
    unfold should_send_notification
    simp only [hne, if_false, hla, fromisoformat, pyListGet_nonneg _ _ h0 h1]
  · have hne : (parse_notification_state u.notification_state).1 ≠ 0 := by omega
    unfold should_send_notification
    simp [hne, hla]

/-- Witness input for C4: notification count 3, last notification at
moment 0, evaluated 49 hours (176400 s) later in category
`EMAIL_ONLY_USER` whose interval at index 3 is 48 hours. -/
def c4_user : UserData :=
  ⟨some (TsStr.valid 0), none, none, "", false, "a@b.c",
   NSField.valid 3 (some (TsStr.valid 0))⟩

/-- Witness for C4: the concrete user with count 3 and a last
notification 49 hours ago is eligible in `EMAIL_ONLY_USER` (48-hour
interval at index 3), and 47 hours (169200 s) after the last notification
it is not. -/
theorem should_send_notification_interval_witness :
    should_send_notification c4_user UserCategory.EMAIL_ONLY_USER 176400 =
      Except.ok true ∧
    should_send_notification c4_user UserCategory.EMAIL_ONLY_USER 169200 =
      Except.ok false := by
  constructor
  · rw [(should_send_notification_interval c4_user UserCategory.EMAIL_ONLY_USER
      176400 0).2.1 (by decide) rfl]
    rfl
  · rw [(should_send_notification_interval c4_user UserCategory.EMAIL_ONLY_USER
      169200 0).2.1 (by decide) rfl]
    rfl

/-- Counterexample input for C10: `notification_state` absent and a
`createdAt` string that `datetime.fromisoformat` cannot parse. -/
def c10_user : UserData :=
  ⟨some TsStr.invalid, none, none, "", false, "", NSField.absent⟩

/-- C10 counterexample: malformed user data CAN raise out of the interval
policy — with `notification_state` absent (so the silent default state is
used and the first-notification path taken) and a present but unparseable
`createdAt`, `should_send_notification` propagates `ValueError` from
`datetime.fromisoformat` instead of returning a boolean. -/
theorem should_send_notification_raises_on_unparseable_createdAt :
    should_send_notification c10_user UserCategory.EMAIL_ONLY_USER 0 =
      Except.error "ValueError: Invalid isoformat string" := by
  rfl

/-- C10 as amended: an absent or validation-failing `notification_state`
silently falls back to the default state (count 0, no timestamp) and the
user is evaluated on the first-notification path; on that path an absent
`createdAt` gives not-eligible (with a warning) and a parseable one gives
the first-interval comparison — but a present, unparseable `createdAt`
raises `ValueError` out of the policy, so not every malformed user record
is raise-free. -/
theorem should_send_notification_fallback (u : UserData) (cat : UserCategory)
    (now t : Int)
    (hstate : u.notification_state = NSField.absent ∨
      u.notification_state = NSField.invalid) :
    parse_notification_state u.notification_state = (0, none) ∧
    (u.createdAt = none → should_send_notification u cat now = Except.ok false) ∧
    (u.createdAt = some (TsStr.valid t) →
      should_send_notification u cat now =
        Except.ok (decide ((CATEGORY_INTERVALS cat).getD 0 0 ≤ now - t))) ∧
    (u.createdAt = some TsStr.invalid →
      should_send_notification u cat now =
        Except.error "ValueError: Invalid isoformat string") := by
  have hns : parse_notification_state u.notification_state = (0, none) := by
    rcases hstate with h | h <;> rw [h] <;> rfl
  refine ⟨hns, fun hca => ?_, fun hca => ?_, fun hca => ?_⟩ <;>
    unfold should_send_notification <;>
    simp [hns, hca, fromisoformat]

/-- Witness for C10's amended theorem: the fallback path evaluated at the
three concrete `createdAt` shapes. -/
theorem should_send_notification_fallback_witness :
    should_send_notification ⟨none, none, none, "", false, "", NSField.invalid⟩
      UserCategory.NEW_USER_PUSH 0 = Except.ok false ∧
    should_send_notification c10_user UserCategory.EMAIL_ONLY_USER 0 =
      Except.error "ValueError: Invalid isoformat string" := by
  constructor
  · exact (should_send_notification_fallback
      ⟨none, none, none, "", false, "", NSField.invalid⟩
      UserCategory.NEW_USER_PUSH 0 0 (Or.inr rfl)).2.1 rfl
  · exact (should_send_notification_fallback c10_user UserCategory.EMAIL_ONLY_USER
      0 0 (Or.inl rfl)).2.2.2 rfl

/-- After the alert flag is set, every later boundary check emits nothing. -/
theorem run_time_checks_alerted (ts : List ℚ) :
    run_time_checks true ts = List.replicate ts.length false := by
  induction ts with
  | nil => rfl
  | cons e rest ih =>
    show false :: run_time_checks true rest = _
    rw [ih, List.length_cons, List.replicate_succ]

/-- C9: the soft wall-clock budget check never cancels the run — every
phase boundary is processed, one check outcome per boundary, and the
check is a total function — and at most one warning-level alert is
emitted per run: exactly one when some boundary's elapsed time reaches
the 20-minute budget, none otherwise, no matter how many later
boundaries are also past the budget. -/
theorem run_time_checks_single_alert (ts : List ℚ) :
    (run_time_checks false ts).length = ts.length ∧
    (run_time_checks false ts).count true ≤ 1 ∧
    ((run_time_checks false ts).count true = 1 ↔
      ∃ e ∈ ts, max_duration_minutes ≤ e) := by
  induction ts with
  | nil => simp [run_time_checks]
  | cons e rest ih =>
    by_cases h : max_duration_minutes ≤ e
    · have hstep : run_time_checks false (e :: rest) =
          true :: run_time_checks true rest := by
        simp [run_time_checks, check_execution_time, h]
      have hcount : List.count true (List.replicate rest.length false) = 0 := by
        simp [List.count_replicate]
      rw [hstep, run_time_checks_alerted]
      refine ⟨by simp, ?_, ?_⟩
      · simp [List.count_cons, hcount]
      · simp only [List.count_cons, hcount, List.mem_cons]
        constructor
        · intro _
          exact ⟨e, Or.inl rfl, h⟩
        · intro _
          simp
    · have hstep : run_time_checks false (e :: rest) =
          false :: run_time_checks false rest := by
        simp [run_time_checks, check_execution_time, h]
      rw [hstep]
      refine ⟨by simpa using ih.1, by simpa using ih.2.1, ?_⟩
      simp only [List.count_cons, List.mem_cons]
      constructor
      · intro h1
        obtain ⟨x, hx, hb⟩ := ih.2.2.mp (by simpa using h1)
        exact ⟨x, Or.inr hx, hb⟩
      · rintro ⟨x, hx | hx, hb⟩
        · exact absurd hb (hx ▸ h)
        · have := ih.2.2.mpr ⟨x, hx, hb⟩
          simp [this]

/-- Concatenating the chunks gives back the list (fuelled worker). -/
theorem chunk_list_go_join (fuel : Nat) (l : List α) (n : Nat)
    (hf : l.length ≤ fuel) (hn : 0 < n) : (chunk_list_go fuel l n).flatten = l := by
  induction fuel generalizing l with
  | zero =>
    cases l with
    | nil => rfl
    | cons a t => simp at hf
  | succ fuel ih =>
    cases l with
    | nil => rfl
    | cons a t =>
      show ((a :: t).take n :: chunk_list_go fuel ((a :: t).drop n) n).flatten = a :: t
      rw [List.flatten_cons, ih ((a :: t).drop n)
        (by rw [List.length_drop]; simp at hf ⊢; omega),
        List.take_append_drop]

/-- Concatenating the chunks of `chunk_list` gives back the input list. -/
theorem chunk_list_join (l : List α) (n : Nat) (hn : 0 < n) :
    (chunk_list l n).flatten = l := by
  rw [chunk_list, if_neg (by omega)]
  exact chunk_list_go_join _ _ _ le_rfl hn

/-- Every chunk has at most `n` elements (fuelled worker). -/
theorem chunk_list_go_length_le (fuel : Nat) (l : List α) (n : Nat) (c : List α)
    (hc : c ∈ chunk_list_go fuel l n) : c.length ≤ n := by
  induction fuel generalizing l with
  | zero =>
    cases l with
    | nil => simp [chunk_list_go] at hc
    | cons a t => simp [chunk_list_go] at hc
  | succ fuel ih =>
    cases l with
    | nil => simp [chunk_list_go] at hc
    | cons a t =>
      rcases (List.mem_cons).mp hc with h | h
      · rw [h, List.length_take]; omega
      · exact ih _ h

/-- Every chunk of `chunk_list` has at most `n` elements. -/
theorem chunk_list_length_le (l : List α) (n : Nat) (c : List α)
    (hc : c ∈ chunk_list l n) : c.length ≤ n := by
  rw [chunk_list] at hc
  by_cases hn : n = 0
  · rw [if_pos hn] at hc; simp at hc
  · exact chunk_list_go_length_le _ _ _ _ ((if_neg hn) ▸ hc)

/-- Every chunk of `chunk_list` is a nonempty slice of the input. -/
theorem chunk_list_ne_nil (fuel : Nat) (l : List α) (n : Nat) (c : List α)
    (hn : 0 < n) (hc : c ∈ chunk_list_go fuel l n) : c ≠ [] := by
  induction fuel generalizing l with
  | zero =>
    cases l with
    | nil => simp [chunk_list_go] at hc
    | cons a t => simp [chunk_list_go] at hc
  | succ fuel ih =>
    cases l with
    | nil => simp [chunk_list_go] at hc
    | cons a t =>
      rcases (List.mem_cons).mp hc with h | h
      · subst h
        cases n with
        | zero => omega
        | succ m => simp [List.take]
      · exact ih _ h

/-- Every element of a chunk is an element of the chunked list. -/
theorem chunk_list_subset (l : List α) (n : Nat) (c : List α) (hn : 0 < n)
    (hc : c ∈ chunk_list l n) : c ⊆ l := by
  intro x hx
  rw [← chunk_list_join l n hn]
  exact List.mem_flatten.mpr ⟨c, hc, hx⟩

/-- A chat chunk adds at most three operations per message: the
conditional thread creation, the message write, the thread update. -/
theorem chat_chunk_build_ops_le [DecidableEq υ] (doc_id : Nat → String)
    (chunk : List (UserChatTask υ × MessageData)) (ex : (υ × String) → Bool)
    (k : Nat) : (chat_chunk_build doc_id chunk ex k).1.length ≤ 3 * chunk.length := by
  induction chunk generalizing ex k with
  | nil => simp [chat_chunk_build]
  | cons tm rest ih =>
    obtain ⟨task, md⟩ := tm
    have hstep : (chat_chunk_build doc_id ((task, md) :: rest) ex k).1 =
        (if ex (task.user_id, task.thread_id.getD "main") then []
         else [BatchOp.set_thread task.user_id (task.thread_id.getD "main")]) ++
        BatchOp.set_message task.user_id (task.thread_id.getD "main") ::
        BatchOp.update_thread task.user_id (task.thread_id.getD "main") ::
        (chat_chunk_build doc_id rest
          (fun key' => if key' = (task.user_id, task.thread_id.getD "main") then true
            else ex key') (k + 1)).1 := rfl
    rw [hstep]
    have hrec := ih (fun key' => if key' = (task.user_id, task.thread_id.getD "main")
      then true else ex key') (k + 1)
    by_cases h : ex (task.user_id, task.thread_id.getD "main") <;>
      simp [h] at hrec ⊢ <;> omega

/-- An email chunk adds exactly one operation per prepared email. -/
theorem email_chunk_build_ops (doc_id : Nat → String)
    (chunk : List (UserEmailTask υ × EmailData)) (k : Nat) :
    (email_chunk_build doc_id chunk k).1.length = chunk.length := by
  induction chunk generalizing k with
  | nil => rfl
  | cons tm rest ih => simp [email_chunk_build, ih]

/-- The success and failure lists of one generation batch together hold
exactly the users of the submitted tasks. -/
theorem generate_email_batch_users [ToString υ] (env : EmailGenEnv υ)
    (l : List (UserEmailTask υ)) :
    ((((generate_email_batch env l).1.map fun p => p.1.user_id) : List υ) : Multiset υ) +
      ↑((generate_email_batch env l).2.map fun f => f.user_id) =
      ↑(l.map fun t => t.user_id) := by
  induction l with
  | nil => rfl
  | cons t rest ih =>
    rcases hr : run_single_email env t with p | f
    · have hp : p.1.user_id = t.user_id := by rw [run_single_email_inl env t p hr]
      simp only [generate_email_batch, hr, List.map_cons]
      rw [show ((↑(p.1.user_id :: ((generate_email_batch env rest).1.map fun q => q.1.user_id)) : Multiset υ)) =
          p.1.user_id ::ₘ ↑((generate_email_batch env rest).1.map fun q => q.1.user_id) from rfl,
        Multiset.cons_add, hp, ih]
      rfl
    · have hf : f.user_id = t.user_id := (run_single_email_inr env t f hr).1
      simp only [generate_email_batch, hr, List.map_cons]
      rw [show ((↑(f.user_id :: ((generate_email_batch env rest).2.map fun g => g.user_id)) : Multiset υ)) =
          f.user_id ::ₘ ↑((generate_email_batch env rest).2.map fun g => g.user_id) from rfl,
        Multiset.add_cons, hf, ih]
      rfl

/-- The successes of one generation batch are exactly the tasks whose
worker returned a success, in completion order. -/
theorem generate_email_batch_success_tasks [ToString υ] (env : EmailGenEnv υ)
    (l : List (UserEmailTask υ)) :
    (generate_email_batch env l).1.map Prod.fst =
      l.filter fun t => (run_single_email env t).isLeft := by
  induction l with
  | nil => rfl
  | cons t rest ih =>
    rcases hr : run_single_email env t with p | f
    · have hp := run_single_email_inl env t p hr
      simp [generate_email_batch, hr, List.filter_cons, hp, ih]
    · simp [generate_email_batch, hr, List.filter_cons, ih]

/-- The failures of one generation batch are exactly the tasks whose
worker returned a failure, by user id, in completion order. -/
theorem generate_email_batch_fail_users [ToString υ] (env : EmailGenEnv υ)
    (l : List (UserEmailTask υ)) :
    (generate_email_batch env l).2.map (fun f => f.user_id) =
      (l.filter fun t => (run_single_email env t).isRight).map fun t => t.user_id := by
  induction l with
  | nil => rfl
  | cons t rest ih =>
    rcases hr : run_single_email env t with p | f
    · simp [generate_email_batch, hr, List.filter_cons, ih]
    · have hf := (run_single_email_inr env t f hr).1
      simp [generate_email_batch, hr, List.filter_cons, hf, ih]

/-- Every success routed by one generation batch came from a submitted
task whose worker succeeded. -/
theorem generate_email_batch_success_mem [ToString υ] (env : EmailGenEnv υ)
    (l : List (UserEmailTask υ)) (p : UserEmailTask υ × EmailData)
    (hp : p ∈ (generate_email_batch env l).1) :
    p.1 ∈ l ∧ run_single_email env p.1 = Sum.inl p := by
  induction l with
  | nil => simp [generate_email_batch] at hp
  | cons t rest ih =>
    rcases hr : run_single_email env t with q | f <;>
      simp only [generate_email_batch, hr] at hp
    · rcases List.mem_cons.mp hp with h | h
      · subst h
        have hq := run_single_email_inl env t p hr
        refine ⟨?_, ?_⟩ <;> rw [hq]
        · exact List.mem_cons_self _ _
        · exact hr
      · obtain ⟨hm, he⟩ := ih h
        exact ⟨List.mem_cons_of_mem _ hm, he⟩
    · obtain ⟨hm, he⟩ := ih hp
      exact ⟨List.mem_cons_of_mem _ hm, he⟩

/-- The generated-email records of one chunk carry the chunk's users. -/
theorem email_chunk_build_users (doc_id : Nat → String)
    (chunk : List (UserEmailTask υ × EmailData)) (k : Nat) :
    (email_chunk_build doc_id chunk k).2.map (fun g => g.user_id) =
      chunk.map fun tc => tc.1.user_id := by
  induction chunk generalizing k with
  | nil => rfl
  | cons tc rest ih =>
    obtain ⟨task, ed⟩ := tc
    simp [email_chunk_build, ih]

/-- A successful writer run returns one record per prepared email of the
committed chunks, carrying exactly their users in order. -/
theorem write_emails_batch_go_ok_users (doc_id : Nat → String)
    (content_commit : Nat → Option PyErr) (counter_commit : Nat → Bool)
    (chunks : List (List (UserEmailTask υ × EmailData))) (i : Nat)
    (w : List (GeneratedEmail υ))
    (hw : (write_emails_batch_go doc_id content_commit counter_commit chunks i).1 =
      Except.ok w) :
    w.map (fun g => g.user_id) = chunks.flatten.map fun tc => tc.1.user_id := by
  induction chunks generalizing i w with
  | nil =>
    simp only [write_emails_batch_go] at hw
    rw [← Except.ok.inj hw]
    rfl
  | cons chunk rest ih =>
    rcases hcc : content_commit i with _ | e
    · simp only [write_emails_batch_go, hcc] at hw
      rcases hnext : (write_emails_batch_go doc_id content_commit counter_commit
          rest (i + 1)).1 with e' | w'
      · rw [hnext] at hw
        exact absurd hw (by simp [Except.map])
      · rw [hnext] at hw
        simp only [Except.map] at hw
        rw [← Except.ok.inj hw]
        simp only [List.map_append, List.flatten_cons, email_chunk_build_users,
          ih _ _ hnext]
    · simp only [write_emails_batch_go, hcc] at hw
      exact absurd hw (by simp)

/-- When every content commit succeeds, the writer returns the
concatenated per-chunk records. -/
theorem write_emails_batch_go_all_ok (doc_id : Nat → String)
    (content_commit : Nat → Option PyErr) (counter_commit : Nat → Bool)
    (hcc : ∀ j, content_commit j = none)
    (chunks : List (List (UserEmailTask υ × EmailData))) (i : Nat) :
    (write_emails_batch_go doc_id content_commit counter_commit chunks i).1 =
      Except.ok ((chunks.map fun c => (email_chunk_build doc_id c 0).2).flatten) := by
  induction chunks generalizing i with
  | nil => rfl
  | cons chunk rest ih =>
    simp [write_emails_batch_go, hcc i, ih (i + 1), Except.map]

/-- The writer's trace is counter-ordered: each chunk contributes its
commit attempt, immediately followed — only on success — by the chunk's
counter-update batch. -/
theorem write_emails_batch_go_trace (doc_id : Nat → String)
    (content_commit : Nat → Option PyErr) (counter_commit : Nat → Bool)
    (chunks : List (List (UserEmailTask υ × EmailData))) (i : Nat)
    (hne : ∀ c ∈ chunks, c ≠ []) :
    CounterOrdered (write_emails_batch_go doc_id content_commit counter_commit chunks i).2 := by
  induction chunks generalizing i with
  | nil => exact CounterOrdered.nil
  | cons chunk rest ih =>
    have hch : chunk ≠ [] := hne chunk (List.mem_cons_self _ _)
    rcases hcc : content_commit i with _ | e
    · rcases chunk with _ | ⟨tc0, ctail⟩
      · exact absurd rfl hch
      · simp only [write_emails_batch_go, hcc,
          update_notification_counters_for_chunk, List.map_cons, List.isEmpty_cons,
          if_false, Bool.false_eq_true, List.singleton_append, List.cons_append,
          List.nil_append]
        exact CounterOrdered.pair _ _ _ _
          (ih (i + 1) fun c hc => hne c (List.mem_cons_of_mem _ hc))
    · simp only [write_emails_batch_go, hcc]
      exact CounterOrdered.solo _ _ _ _ CounterOrdered.nil

/-- Every counter-update batch in the writer's trace is the counter
update of one of the writer's chunks. -/
theorem write_emails_batch_go_counter_mem (doc_id : Nat → String)
    (content_commit : Nat → Option PyErr) (counter_commit : Nat → Bool)
    (chunks : List (List (UserEmailTask υ × EmailData))) (i : Nat)
    (u : List υ) (k : Bool)
    (hmem : WEvent.counterUpdate u k ∈
      (write_emails_batch_go doc_id content_commit counter_commit chunks i).2) :
    ∃ c ∈ chunks, u = c.map fun tc => tc.1.user_id := by
  induction chunks generalizing i with
  | nil => simp [write_emails_batch_go] at hmem
  | cons chunk rest ih =>
    rcases hcc : content_commit i with _ | e
    · simp only [write_emails_batch_go, hcc,
        update_notification_counters_for_chunk] at hmem
      rcases List.mem_cons.mp hmem with h | h
      · exact absurd h (by simp)
      · rcases List.mem_append.mp h with h2 | h2
        · rcases hie : (chunk.map fun tc => tc.1.user_id).isEmpty with _ | _
          · rw [hie] at h2
            simp at h2
            exact ⟨chunk, List.mem_cons_self _ _, h2.1.symm ▸ rfl⟩
          · rw [hie] at h2
            simp at h2
        · obtain ⟨c, hc, hu⟩ := ih (i + 1) h2
          exact ⟨c, List.mem_cons_of_mem _ hc, hu⟩
    · simp only [write_emails_batch_go, hcc] at hmem
      simp at hmem

/-- The writer's returned value and its content-commit events do not
depend on the counter-update oracle: a failed counter batch neither
raises nor changes nor retries any content write. -/
theorem write_emails_batch_go_kc (doc_id : Nat → String)
    (content_commit : Nat → Option PyErr) (kc kc' : Nat → Bool)
    (chunks : List (List (UserEmailTask υ × EmailData))) (i : Nat) :
    (write_emails_batch_go doc_id content_commit kc chunks i).1 =
      (write_emails_batch_go doc_id content_commit kc' chunks i).1 ∧
    (write_emails_batch_go doc_id content_commit kc chunks i).2.filter is_content_commit =
      (write_emails_batch_go doc_id content_commit kc' chunks i).2.filter is_content_commit := by
  induction chunks generalizing i with
  | nil => exact ⟨rfl, rfl⟩
  | cons chunk rest ih =>
    rcases hcc : content_commit i with _ | e
    · obtain ⟨ih1, ih2⟩ := ih (i + 1)
      constructor
      · simp only [write_emails_batch_go, hcc, ih1]
      · simp only [write_emails_batch_go, hcc,
          update_notification_counters_for_chunk, List.filter_cons, List.filter_append]
        rcases hie : (chunk.map fun tc => tc.1.user_id).isEmpty with _ | _ <;>
          simp [hie, is_content_commit, ih2]
    · simp [write_emails_batch_go, hcc]

/-- Every chunk produced by `chunk_list` is nonempty. -/
theorem chunk_list_mem_ne_nil (l : List α) (n : Nat) (c : List α) (hn : 0 < n)
    (hc : c ∈ chunk_list l n) : c ≠ [] := by
  rw [chunk_list, if_neg (by omega)] at hc
  exact chunk_list_ne_nil _ _ _ _ hn hc

/-- A successful `_write_emails_batch` returns exactly the prepared
emails' users, in order. -/
theorem write_emails_batch_ok_users (doc_id : Nat → String)
    (prepared : List (UserEmailTask υ × EmailData))
    (content_commit : Nat → Option PyErr) (counter_commit : Nat → Bool)
    (w : List (GeneratedEmail υ))
    (hw : (write_emails_batch doc_id prepared content_commit counter_commit).1 =
      Except.ok w) :
    w.map (fun g => g.user_id) = prepared.map fun tc => tc.1.user_id := by
  by_cases hemp : prepared.isEmpty
  · rw [write_emails_batch, if_pos hemp] at hw
    rw [← Except.ok.inj hw]
    rcases prepared with _ | ⟨tc, rest⟩
    · rfl
    · simp at hemp
  · rw [write_emails_batch, if_neg hemp] at hw
    rw [write_emails_batch_go_ok_users doc_id content_commit counter_commit
      (chunk_list prepared 500) 0 w hw, chunk_list_join prepared 500 (by omega)]

/-- The trace of `_write_emails_batch` is counter-ordered. -/
theorem write_emails_batch_trace (doc_id : Nat → String)
    (prepared : List (UserEmailTask υ × EmailData))
    (content_commit : Nat → Option PyErr) (counter_commit : Nat → Bool) :
    CounterOrdered (write_emails_batch doc_id prepared content_commit counter_commit).2 := by
  by_cases hemp : prepared.isEmpty
  · rw [write_emails_batch, if_pos hemp]
    exact CounterOrdered.nil
  · rw [write_emails_batch, if_neg hemp]
    exact write_emails_batch_go_trace _ _ _ _ _
      (fun c hc => chunk_list_mem_ne_nil _ _ _ (by omega) hc)

/-- Counter updates in a `_write_emails_batch` trace update only users
of the prepared emails. -/
theorem write_emails_batch_counter_mem (doc_id : Nat → String)
    (prepared : List (UserEmailTask υ × EmailData))
    (content_commit : Nat → Option PyErr) (counter_commit : Nat → Bool)
    (u : List υ) (k : Bool)
    (hmem : WEvent.counterUpdate u k ∈
      (write_emails_batch doc_id prepared content_commit counter_commit).2)
    (x : υ) (hx : x ∈ u) :
    ∃ tc, tc ∈ prepared ∧ tc.1.user_id = x := by
  by_cases hemp : prepared.isEmpty
  · rw [write_emails_batch, if_pos hemp] at hmem
    simp at hmem
  · rw [write_emails_batch, if_neg hemp] at hmem
    obtain ⟨c, hc, hu⟩ := write_emails_batch_go_counter_mem doc_id content_commit
      counter_commit (chunk_list prepared 500) 0 u k hmem
    rw [hu] at hx
    obtain ⟨tc, htc, hxeq⟩ := List.mem_map.mp hx
    exact ⟨tc, chunk_list_subset prepared 500 c (by omega) hc htc, hxeq⟩

/-- The result and content-commit events of `_write_emails_batch` do not
depend on the counter-update oracle. -/
theorem write_emails_batch_kc (doc_id : Nat → String)
    (prepared : List (UserEmailTask υ × EmailData))
    (content_commit : Nat → Option PyErr) (kc kc' : Nat → Bool) :
    (write_emails_batch doc_id prepared content_commit kc).1 =
      (write_emails_batch doc_id prepared content_commit kc').1 ∧
    (write_emails_batch doc_id prepared content_commit kc).2.filter is_content_commit =
      (write_emails_batch doc_id prepared content_commit kc').2.filter is_content_commit := by
  by_cases hemp : prepared.isEmpty
  · rw [write_emails_batch, write_emails_batch, if_pos hemp, if_pos hemp]
    exact ⟨rfl, rfl⟩
  · rw [write_emails_batch, write_emails_batch, if_neg hemp, if_neg hemp]
    exact write_emails_batch_go_kc _ _ _ _ _ _

/-- The write phase of one generation batch conserves users: its success
and failure lists together hold exactly the users handed to the writer. -/
theorem email_write_phase_users (doc_id : Nat → String)
    (prepared : List (UserEmailTask υ × EmailData))
    (content_commit : Nat → Option PyErr) (counter_commit : Nat → Bool) :
    ((email_write_phase doc_id prepared content_commit counter_commit).1.1.map
      fun g => g.user_id) ++
    ((email_write_phase doc_id prepared content_commit counter_commit).1.2.map
      fun f => f.user_id) =
    prepared.map fun tc => tc.1.user_id := by
  by_cases hemp : prepared.isEmpty
  · rw [email_write_phase, if_pos hemp]
    rcases prepared with _ | ⟨tc, rest⟩
    · rfl
    · simp at hemp
  · rcases hw : write_emails_batch doc_id prepared content_commit counter_commit
      with ⟨res, evs⟩
    have hw1 : (write_emails_batch doc_id prepared content_commit counter_commit).1 = res :=
      congrArg Prod.fst hw
    rcases res with e | w
    · rw [email_write_phase, if_neg hemp, hw]
      simp [List.map_map, Function.comp]
    · rw [email_write_phase, if_neg hemp, hw]
      simp [write_emails_batch_ok_users doc_id prepared content_commit counter_commit w hw1]

/-- The trace of the write phase is counter-ordered. -/
theorem email_write_phase_trace (doc_id : Nat → String)
    (prepared : List (UserEmailTask υ × EmailData))
    (content_commit : Nat → Option PyErr) (counter_commit : Nat → Bool) :
    CounterOrdered (email_write_phase doc_id prepared content_commit counter_commit).2 := by
  by_cases hemp : prepared.isEmpty
  · rw [email_write_phase, if_pos hemp]
    exact CounterOrdered.nil
  · have := write_emails_batch_trace doc_id prepared content_commit counter_commit
    rcases hw : write_emails_batch doc_id prepared content_commit counter_commit
      with ⟨res, evs⟩
    rw [hw] at this
    rcases res with e | w <;> rw [email_write_phase, if_neg hemp, hw] <;> exact this

/-- Counter updates in the write phase touch only users handed to the
writer. -/
theorem email_write_phase_counter_mem (doc_id : Nat → String)
    (prepared : List (UserEmailTask υ × EmailData))
    (content_commit : Nat → Option PyErr) (counter_commit : Nat → Bool)
    (u : List υ) (k : Bool)
    (hmem : WEvent.counterUpdate u k ∈
      (email_write_phase doc_id prepared content_commit counter_commit).2)
    (x : υ) (hx : x ∈ u) :
    ∃ tc, tc ∈ prepared ∧ tc.1.user_id = x := by
  by_cases hemp : prepared.isEmpty
  · rw [email_write_phase, if_pos hemp] at hmem
    simp at hmem
  · have hkey := write_emails_batch_counter_mem doc_id prepared content_commit
      counter_commit u k
    rcases hw : write_emails_batch doc_id prepared content_commit counter_commit
      with ⟨res, evs⟩
    rw [hw] at hkey
    rcases res with e | w <;> rw [email_write_phase, if_neg hemp, hw] at hmem <;>
      exact hkey hmem x hx

/-- The write phase's outcome and content-commit events do not depend on
the counter-update oracle. -/
theorem email_write_phase_kc (doc_id : Nat → String)
    (prepared : List (UserEmailTask υ × EmailData))
    (content_commit : Nat → Option PyErr) (kc kc' : Nat → Bool) :
    (email_write_phase doc_id prepared content_commit kc).1 =
      (email_write_phase doc_id prepared content_commit kc').1 ∧
    (email_write_phase doc_id prepared content_commit kc).2.filter is_content_commit =
      (email_write_phase doc_id prepared content_commit kc').2.filter is_content_commit := by
  by_cases hemp : prepared.isEmpty
  · rw [email_write_phase, email_write_phase, if_pos hemp, if_pos hemp]
    exact ⟨rfl, rfl⟩
  · obtain ⟨h1, h2⟩ := write_emails_batch_kc doc_id prepared content_commit kc kc'
    rcases hw : write_emails_batch doc_id prepared content_commit kc with ⟨res, evs⟩
    rcases hw' : write_emails_batch doc_id prepared content_commit kc' with ⟨res', evs'⟩
    rw [hw, hw'] at h1 h2
    simp only at h1 h2
    subst h1
    rcases res with e | w <;>
      rw [email_write_phase, email_write_phase, if_neg hemp, if_neg hemp, hw, hw'] <;>
      exact ⟨rfl, h2⟩

/-- When every content commit succeeds, the write phase reports no
failures and returns records for exactly the users handed to it. -/
theorem email_write_phase_all_ok (doc_id : Nat → String)
    (prepared : List (UserEmailTask υ × EmailData))
    (content_commit : Nat → Option PyErr) (counter_commit : Nat → Bool)
    (hcc : ∀ j, content_commit j = none) :
    (email_write_phase doc_id prepared content_commit counter_commit).1.2 = [] ∧
    (email_write_phase doc_id prepared content_commit counter_commit).1.1.map
      (fun g => g.user_id) = prepared.map fun tc => tc.1.user_id := by
  by_cases hemp : prepared.isEmpty
  · rw [email_write_phase, if_pos hemp]
    rcases prepared with _ | ⟨tc, rest⟩
    · exact ⟨rfl, rfl⟩
    · simp at hemp
  · have hok : (write_emails_batch doc_id prepared content_commit counter_commit).1 =
        Except.ok (((chunk_list prepared 500).map
          fun c => (email_chunk_build doc_id c 0).2).flatten) := by
      rw [write_emails_batch, if_neg hemp]
      exact write_emails_batch_go_all_ok doc_id content_commit counter_commit hcc _ 0
    rcases hw : write_emails_batch doc_id prepared content_commit counter_commit
      with ⟨res, evs⟩
    rw [hw] at hok
    simp only at hok
    subst hok
    rw [email_write_phase, if_neg hemp, hw]
    refine ⟨rfl, ?_⟩
    have hw1 : (write_emails_batch doc_id prepared content_commit counter_commit).1 =
        Except.ok (((chunk_list prepared 500).map
          fun c => (email_chunk_build doc_id c 0).2).flatten) := by rw [hw]
    exact write_emails_batch_ok_users doc_id prepared content_commit counter_commit _ hw1

/-- Across the batch loop, the success and failure lists together hold
exactly the users of all submitted tasks (as a multiset), whatever the
per-batch completion order (any permutation) and whatever the store
does. -/
theorem run_email_batches_users [ToString υ] (env : EmailGenEnv υ)
    (doc_id : Nat → String)
    (reorder : Nat → List (UserEmailTask υ) → List (UserEmailTask υ))
    (content_commit : Nat → Nat → Option PyErr) (counter_commit : Nat → Nat → Bool)
    (batches : List (List (UserEmailTask υ))) (i : Nat)
    (hperm : ∀ j b, batches.get? j = some b → (reorder (i + j) b).Perm b) :
    (((run_email_batches env doc_id reorder content_commit counter_commit batches i).1.1.map
      fun g => g.user_id : List υ) : Multiset υ) +
    ↑((run_email_batches env doc_id reorder content_commit counter_commit batches i).1.2.map
      fun f => f.user_id) =
    ↑(batches.flatten.map fun t => t.user_id) := by
  induction batches generalizing i with
  | nil => rfl
  | cons b rest ih =>
    have key1 : ((((email_write_phase doc_id
          (generate_email_batch env (reorder i b)).1
          (content_commit i) (counter_commit i)).1.1.map fun g => g.user_id) : List υ) : Multiset υ) +
        ↑((email_write_phase doc_id (generate_email_batch env (reorder i b)).1
          (content_commit i) (counter_commit i)).1.2.map fun f => f.user_id) =
        ↑((generate_email_batch env (reorder i b)).1.map fun tc => tc.1.user_id) := by
      rw [Multiset.coe_add,
        email_write_phase_users doc_id (generate_email_batch env (reorder i b)).1
          (content_commit i) (counter_commit i)]
    have key2 := generate_email_batch_users env (reorder i b)
    have key3 : ((((reorder i b).map fun t => t.user_id) : List υ) : Multiset υ) =
        ↑(b.map fun t => t.user_id) :=
      Multiset.coe_eq_coe.mpr ((hperm 0 b (by simp)).map fun t => t.user_id)
    have key4 := ih (i + 1) fun j b' hj =>
      (by have := hperm (j + 1) b' (by simpa using hj); rwa [show i + (j + 1) = i + 1 + j by omega] at this)
    simp only [run_email_batches, List.flatten_cons, List.map_append, ← Multiset.coe_add]
    rw [← key4, ← key3, ← key2, ← key1]
    abel

/-- The full batch-loop trace is counter-ordered. -/
theorem run_email_batches_trace [ToString υ] (env : EmailGenEnv υ)
    (doc_id : Nat → String)
    (reorder : Nat → List (UserEmailTask υ) → List (UserEmailTask υ))
    (content_commit : Nat → Nat → Option PyErr) (counter_commit : Nat → Nat → Bool)
    (batches : List (List (UserEmailTask υ))) (i : Nat) :
    CounterOrdered
      (run_email_batches env doc_id reorder content_commit counter_commit batches i).2 := by
  induction batches generalizing i with
  | nil => exact CounterOrdered.nil
  | cons b rest ih =>
    exact CounterOrdered.append _ _
      (email_write_phase_trace doc_id _ (content_commit i) (counter_commit i)) (ih (i + 1))

/-- Counter-update batches across the whole loop touch only users whose
task's generation succeeded. -/
theorem run_email_batches_counter_mem [ToString υ] (env : EmailGenEnv υ)
    (doc_id : Nat → String)
    (reorder : Nat → List (UserEmailTask υ) → List (UserEmailTask υ))
    (content_commit : Nat → Nat → Option PyErr) (counter_commit : Nat → Nat → Bool)
    (batches : List (List (UserEmailTask υ))) (i : Nat)
    (hperm : ∀ j b, batches.get? j = some b → (reorder (i + j) b).Perm b)
    (u : List υ) (k : Bool)
    (hmem : WEvent.counterUpdate u k ∈
      (run_email_batches env doc_id reorder content_commit counter_commit batches i).2)
    (x : υ) (hx : x ∈ u) :
    ∃ t, t ∈ batches.flatten ∧ t.user_id = x ∧
      (run_single_email env t).isLeft = true := by
  induction batches generalizing i with
  | nil => simp [run_email_batches] at hmem
  | cons b rest ih =>
    simp only [run_email_batches] at hmem
    rcases List.mem_append.mp hmem with h | h
    · obtain ⟨tc, htc, hxeq⟩ := email_write_phase_counter_mem doc_id _
        (content_commit i) (counter_commit i) u k h x hx
      obtain ⟨hm, he⟩ := generate_email_batch_success_mem env (reorder i b) tc htc
      have hb : tc.1 ∈ b := (hperm 0 b (by simp)).mem_iff.mp hm
      exact ⟨tc.1, List.mem_flatten.mpr ⟨b, List.mem_cons_self _ _, hb⟩,
        hxeq, by rw [he]; rfl⟩
    · obtain ⟨t, hm, hxeq, hleft⟩ := ih (i + 1)
        (fun j b' hj => (by
          have := hperm (j + 1) b' (by simpa using hj)
          rwa [show i + (j + 1) = i + 1 + j by omega] at this)) h
      refine ⟨t, ?_, hxeq, hleft⟩
      obtain ⟨c, hc, htc⟩ := List.mem_flatten.mp hm
      exact List.mem_flatten.mpr ⟨c, List.mem_cons_of_mem _ hc, htc⟩

/-- The batch loop's aggregated result and content-commit events do not
depend on the counter-update oracle. -/
theorem run_email_batches_kc [ToString υ] (env : EmailGenEnv υ)
    (doc_id : Nat → String)
    (reorder : Nat → List (UserEmailTask υ) → List (UserEmailTask υ))
    (content_commit : Nat → Nat → Option PyErr) (kc kc' : Nat → Nat → Bool)
    (batches : List (List (UserEmailTask υ))) (i : Nat) :
    (run_email_batches env doc_id reorder content_commit kc batches i).1 =
      (run_email_batches env doc_id reorder content_commit kc' batches i).1 ∧
    (run_email_batches env doc_id reorder content_commit kc batches i).2.filter
      is_content_commit =
    (run_email_batches env doc_id reorder content_commit kc' batches i).2.filter
      is_content_commit := by
  induction batches generalizing i with
  | nil => exact ⟨rfl, rfl⟩
  | cons b rest ih =>
    obtain ⟨ih1, ih2⟩ := ih (i + 1)
    obtain ⟨hp1, hp2⟩ := email_write_phase_kc doc_id
      (generate_email_batch env (reorder i b)).1 (content_commit i) (kc i) (kc' i)
    constructor
    · simp only [run_email_batches, hp1, ih1]
    · simp only [run_email_batches, List.filter_append, hp2, ih2]

/-- With every content commit succeeding, the loop's failures are exactly
the generation failures and its successes exactly the generation
successes, by user id as multisets. -/
theorem run_email_batches_all_ok [ToString υ] (env : EmailGenEnv υ)
    (doc_id : Nat → String)
    (reorder : Nat → List (UserEmailTask υ) → List (UserEmailTask υ))
    (content_commit : Nat → Nat → Option PyErr) (counter_commit : Nat → Nat → Bool)
    (batches : List (List (UserEmailTask υ))) (i : Nat)
    (hperm : ∀ j b, batches.get? j = some b → (reorder (i + j) b).Perm b)
    (hcc : ∀ a j, content_commit a j = none) :
    (((run_email_batches env doc_id reorder content_commit counter_commit batches i).1.2.map
      fun f => f.user_id : List υ) : Multiset υ) =
      ↑((batches.flatten.filter fun t => (run_single_email env t).isRight).map
        fun t => t.user_id) ∧
    (((run_email_batches env doc_id reorder content_commit counter_commit batches i).1.1.map
      fun g => g.user_id : List υ) : Multiset υ) =
      ↑((batches.flatten.filter fun t => (run_single_email env t).isLeft).map
        fun t => t.user_id) := by
  induction batches generalizing i with
  | nil => exact ⟨rfl, rfl⟩
  | cons b rest ih =>
    have hphase := email_write_phase_all_ok doc_id
      (generate_email_batch env (reorder i b)).1 (content_commit i) (counter_commit i)
      (hcc i)
    obtain ⟨ihf, ihs⟩ := ih (i + 1) fun j b' hj =>
      (by have := hperm (j + 1) b' (by simpa using hj)
          rwa [show i + (j + 1) = i + 1 + j by omega] at this)
    have hpermb : (reorder i b).Perm b := hperm 0 b (by simp)
    constructor
    · have hfail : ((generate_email_batch env (reorder i b)).2.map fun f => f.user_id) =
          ((reorder i b).filter fun t => (run_single_email env t).isRight).map
            fun t => t.user_id :=
        generate_email_batch_fail_users env (reorder i b)
      have hfperm : (((reorder i b).filter fun t => (run_single_email env t).isRight) :
          List (UserEmailTask υ)).Perm
          (b.filter fun t => (run_single_email env t).isRight) :=
        hpermb.filter _
      simp only [run_email_batches, List.flatten_cons, List.map_append,
        ← Multiset.coe_add, hphase.1, List.map_nil, List.nil_append, List.append_nil,
        List.filter_append, hfail, ihf]
      rw [Multiset.coe_eq_coe.mpr (hfperm.map fun t => t.user_id)]
    · have hsucc : ((generate_email_batch env (reorder i b)).1.map fun tc => tc.1.user_id) =
          ((reorder i b).filter fun t => (run_single_email env t).isLeft).map
            fun t => t.user_id := by
        have := congrArg (List.map fun t => t.user_id)
          (generate_email_batch_success_tasks env (reorder i b))
        simpa [List.map_map, Function.comp] using this
      have hsperm : (((reorder i b).filter fun t => (run_single_email env t).isLeft) :
          List (UserEmailTask υ)).Perm
          (b.filter fun t => (run_single_email env t).isLeft) :=
        hpermb.filter _
      simp only [run_email_batches, List.flatten_cons, List.map_append,
        ← Multiset.coe_add, List.filter_append, hphase.2, hsucc, ihs]
      rw [Multiset.coe_eq_coe.mpr (hsperm.map fun t => t.user_id)]

/-- The success and failure lists of one chat generation batch together
hold exactly the users of the submitted tasks. -/
theorem generate_chat_batch_users [ToString υ] (env : ChatGenEnv υ)
    (l : List (UserChatTask υ)) :
    ((((generate_chat_batch env l).1.map fun p => p.1.user_id) : List υ) : Multiset υ) +
      ↑((generate_chat_batch env l).2.map fun f => f.user_id) =
      ↑(l.map fun t => t.user_id) := by
  induction l with
  | nil => rfl
  | cons t rest ih =>
    rcases hr : run_single_chat env t with p | f
    · have hp : p.1.user_id = t.user_id := by rw [run_single_chat_inl env t p hr]
      simp only [generate_chat_batch, hr, List.map_cons]
      rw [show ((↑(p.1.user_id :: ((generate_chat_batch env rest).1.map fun q => q.1.user_id)) : Multiset υ)) =
          p.1.user_id ::ₘ ↑((generate_chat_batch env rest).1.map fun q => q.1.user_id) from rfl,
        Multiset.cons_add, hp, ih]
      rfl
    · have hf : f.user_id = t.user_id := (run_single_chat_inr env t f hr).1
      simp only [generate_chat_batch, hr, List.map_cons]
      rw [show ((↑(f.user_id :: ((generate_chat_batch env rest).2.map fun g => g.user_id)) : Multiset υ)) =
          f.user_id ::ₘ ↑((generate_chat_batch env rest).2.map fun g => g.user_id) from rfl,
        Multiset.add_cons, hf, ih]
      rfl

/-- The successes of one chat generation batch are exactly the tasks
whose worker returned a success, in completion order. -/
theorem generate_chat_batch_success_tasks [ToString υ] (env : ChatGenEnv υ)
    (l : List (UserChatTask υ)) :
    (generate_chat_batch env l).1.map Prod.fst =
      l.filter fun t => (run_single_chat env t).isLeft := by
  induction l with
  | nil => rfl
  | cons t rest ih =>
    rcases hr : run_single_chat env t with p | f
    · have hp := run_single_chat_inl env t p hr
      simp [generate_chat_batch, hr, List.filter_cons, hp, ih]
    · simp [generate_chat_batch, hr, List.filter_cons, ih]

/-- The failures of one chat generation batch are exactly the tasks whose
worker returned a failure, by user id, in completion order. -/
theorem generate_chat_batch_fail_users [ToString υ] (env : ChatGenEnv υ)
    (l : List (UserChatTask υ)) :
    (generate_chat_batch env l).2.map (fun f => f.user_id) =
      (l.filter fun t => (run_single_chat env t).isRight).map fun t => t.user_id := by
  induction l with
  | nil => rfl
  | cons t rest ih =>
    rcases hr : run_single_chat env t with p | f
    · simp [generate_chat_batch, hr, List.filter_cons, ih]
    · have hf := (run_single_chat_inr env t f hr).1
      simp [generate_chat_batch, hr, List.filter_cons, hf, ih]

/-- Every success routed by one chat generation batch came from a
submitted task whose worker succeeded. -/
theorem generate_chat_batch_success_mem [ToString υ] (env : ChatGenEnv υ)
    (l : List (UserChatTask υ)) (p : UserChatTask υ × MessageData)
    (hp : p ∈ (generate_chat_batch env l).1) :
    p.1 ∈ l ∧ run_single_chat env p.1 = Sum.inl p := by
  induction l with
  | nil => simp [generate_chat_batch] at hp
  | cons t rest ih =>
    rcases hr : run_single_chat env t with q | f <;>
      simp only [generate_chat_batch, hr] at hp
    · rcases List.mem_cons.mp hp with h | h
      · subst h
        have hq := run_single_chat_inl env t p hr
        refine ⟨?_, ?_⟩ <;> rw [hq]
        · exact List.mem_cons_self _ _
        · exact hr
      · obtain ⟨hm, he⟩ := ih h
        exact ⟨List.mem_cons_of_mem _ hm, he⟩
    · obtain ⟨hm, he⟩ := ih hp
      exact ⟨List.mem_cons_of_mem _ hm, he⟩

/-- The generated-message records of one chat chunk carry the chunk's
users. -/
theorem chat_chunk_build_users [DecidableEq υ] (doc_id : Nat → String)
    (chunk : List (UserChatTask υ × MessageData)) (ex : (υ × String) → Bool)
    (k : Nat) :
    (chat_chunk_build doc_id chunk ex k).2.map (fun g => g.user_id) =
      chunk.map fun tc => tc.1.user_id := by
  induction chunk generalizing ex k with
  | nil => rfl
  | cons tc rest ih =>
    obtain ⟨task, md⟩ := tc
    simp [chat_chunk_build, ih]

/-- A successful chat writer run returns one record per prepared message,
carrying exactly their users in order. -/
theorem write_chat_go_ok_users [DecidableEq υ] (doc_id : Nat → String)
    (thread_store : (υ × String) → Bool)
    (content_commit : Nat → Option PyErr) (counter_commit : Nat → Bool)
    (chunks : List (List (UserChatTask υ × MessageData))) (i : Nat)
    (w : List (GeneratedChatMessage υ))
    (hw : (write_chat_messages_batch_go doc_id thread_store content_commit
      counter_commit chunks i).1 = Except.ok w) :
    w.map (fun g => g.user_id) = chunks.flatten.map fun tc => tc.1.user_id := by
  induction chunks generalizing i w with
  | nil =>
    simp only [write_chat_messages_batch_go] at hw
    rw [← Except.ok.inj hw]
    rfl
  | cons chunk rest ih =>
    rcases hcc : content_commit i with _ | e
    · simp only [write_chat_messages_batch_go, hcc] at hw
      rcases hnext : (write_chat_messages_batch_go doc_id thread_store content_commit
          counter_commit rest (i + 1)).1 with e' | w'
      · rw [hnext] at hw
        exact absurd hw (by simp [Except.map])
      · rw [hnext] at hw
        simp only [Except.map] at hw
        rw [← Except.ok.inj hw]
        simp only [List.map_append, List.flatten_cons, chat_chunk_build_users,
          ih _ _ hnext]
    · simp only [write_chat_messages_batch_go, hcc] at hw
      exact absurd hw (by simp)

/-- When every content commit succeeds, the chat writer returns the
concatenated per-chunk records. -/
theorem write_chat_go_all_ok [DecidableEq υ] (doc_id : Nat → String)
    (thread_store : (υ × String) → Bool)
    (content_commit : Nat → Option PyErr) (counter_commit : Nat → Bool)
    (hcc : ∀ j, content_commit j = none)
    (chunks : List (List (UserChatTask υ × MessageData))) (i : Nat) :
    (write_chat_messages_batch_go doc_id thread_store content_commit
      counter_commit chunks i).1 =
      Except.ok ((chunks.map fun c => (chat_chunk_build doc_id c thread_store 0).2).flatten) := by
  induction chunks generalizing i with
  | nil => rfl
  | cons chunk rest ih =>
    simp [write_chat_messages_batch_go, hcc i, ih (i + 1), Except.map]

/-- The chat writer's trace is counter-ordered. -/
theorem write_chat_go_trace [DecidableEq υ] (doc_id : Nat → String)
    (thread_store : (υ × String) → Bool)
    (content_commit : Nat → Option PyErr) (counter_commit : Nat → Bool)
    (chunks : List (List (UserChatTask υ × MessageData))) (i : Nat)
    (hne : ∀ c ∈ chunks, c ≠ []) :
    CounterOrdered (write_chat_messages_batch_go doc_id thread_store content_commit
      counter_commit chunks i).2 := by
  induction chunks generalizing i with
  | nil => exact CounterOrdered.nil
  | cons chunk rest ih =>
    have hch : chunk ≠ [] := hne chunk (List.mem_cons_self _ _)
    rcases hcc : content_commit i with _ | e
    · rcases chunk with _ | ⟨tc0, ctail⟩
      · exact absurd rfl hch
      · simp only [write_chat_messages_batch_go, hcc,
          update_notification_counters_for_chunk, List.map_cons, List.isEmpty_cons,
          if_false, Bool.false_eq_true, List.singleton_append, List.cons_append,
          List.nil_append]
        exact CounterOrdered.pair _ _ _ _
          (ih (i + 1) fun c hc => hne c (List.mem_cons_of_mem _ hc))
    · simp only [write_chat_messages_batch_go, hcc]
      exact CounterOrdered.solo _ _ _ _ CounterOrdered.nil

/-- Every counter-update batch in the chat writer's trace is the counter
update of one of its chunks. -/
theorem write_chat_go_counter_mem [DecidableEq υ] (doc_id : Nat → String)
    (thread_store : (υ × String) → Bool)
    (content_commit : Nat → Option PyErr) (counter_commit : Nat → Bool)
    (chunks : List (List (UserChatTask υ × MessageData))) (i : Nat)
    (u : List υ) (k : Bool)
    (hmem : WEvent.counterUpdate u k ∈
      (write_chat_messages_batch_go doc_id thread_store content_commit
        counter_commit chunks i).2) :
    ∃ c ∈ chunks, u = c.map fun tc => tc.1.user_id := by
  induction chunks generalizing i with
  | nil => simp [write_chat_messages_batch_go] at hmem
  | cons chunk rest ih =>
    rcases hcc : content_commit i with _ | e
    · simp only [write_chat_messages_batch_go, hcc,
        update_notification_counters_for_chunk] at hmem
      rcases List.mem_cons.mp hmem with h | h
      · exact absurd h (by simp)
      · rcases List.mem_append.mp h with h2 | h2
        · rcases hie : (chunk.map fun tc => tc.1.user_id).isEmpty with _ | _
          · rw [hie] at h2
            simp at h2
            exact ⟨chunk, List.mem_cons_self _ _, h2.1.symm ▸ rfl⟩
          · rw [hie] at h2
            simp at h2
        · obtain ⟨c, hc, hu⟩ := ih (i + 1) h2
          exact ⟨c, List.mem_cons_of_mem _ hc, hu⟩
    · simp only [write_chat_messages_batch_go, hcc] at hmem
      simp at hmem

/-- The chat writer's returned value and its content-commit events do not
depend on the counter-update oracle. -/
theorem write_chat_go_kc [DecidableEq υ] (doc_id : Nat → String)
    (thread_store : (υ × String) → Bool)
    (content_commit : Nat → Option PyErr) (kc kc' : Nat → Bool)
    (chunks : List (List (UserChatTask υ × MessageData))) (i : Nat) :
    (write_chat_messages_batch_go doc_id thread_store content_commit kc chunks i).1 =
      (write_chat_messages_batch_go doc_id thread_store content_commit kc' chunks i).1 ∧
    (write_chat_messages_batch_go doc_id thread_store content_commit kc chunks i).2.filter
      is_content_commit =
    (write_chat_messages_batch_go doc_id thread_store content_commit kc' chunks i).2.filter
      is_content_commit := by
  induction chunks generalizing i with
  | nil => exact ⟨rfl, rfl⟩
  | cons chunk rest ih =>
    rcases hcc : content_commit i with _ | e
    · obtain ⟨ih1, ih2⟩ := ih (i + 1)
      constructor
      · simp only [write_chat_messages_batch_go, hcc, ih1]
      · simp only [write_chat_messages_batch_go, hcc,
          update_notification_counters_for_chunk, List.filter_cons, List.filter_append]
        rcases hie : (chunk.map fun tc => tc.1.user_id).isEmpty with _ | _ <;>
          simp [hie, is_content_commit, ih2]
    · simp [write_chat_messages_batch_go, hcc]

/-- A successful `_write_chat_messages_batch` returns exactly the prepared
messages' users, in order. -/
theorem write_chat_messages_batch_ok_users [DecidableEq υ] (doc_id : Nat → String)
    (thread_store : (υ × String) → Bool)
    (prepared : List (UserChatTask υ × MessageData))
    (content_commit : Nat → Option PyErr) (counter_commit : Nat → Bool)
    (w : List (GeneratedChatMessage υ))
    (hw : (write_chat_messages_batch doc_id thread_store prepared content_commit
      counter_commit).1 = Except.ok w) :
    w.map (fun g => g.user_id) = prepared.map fun tc => tc.1.user_id := by
  by_cases hemp : prepared.isEmpty
  · rw [write_chat_messages_batch, if_pos hemp] at hw
    rw [← Except.ok.inj hw]
    rcases prepared with _ | ⟨tc, rest⟩
    · rfl
    · simp at hemp
  · rw [write_chat_messages_batch, if_neg hemp] at hw
    rw [write_chat_go_ok_users doc_id thread_store content_commit counter_commit
      (chunk_list prepared 250) 0 w hw, chunk_list_join prepared 250 (by omega)]

/-- The trace of `_write_chat_messages_batch` is counter-ordered. -/
theorem write_chat_messages_batch_trace [DecidableEq υ] (doc_id : Nat → String)
    (thread_store : (υ × String) → Bool)
    (prepared : List (UserChatTask υ × MessageData))
    (content_commit : Nat → Option PyErr) (counter_commit : Nat → Bool) :
    CounterOrdered (write_chat_messages_batch doc_id thread_store prepared
      content_commit counter_commit).2 := by
  by_cases hemp : prepared.isEmpty
  · rw [write_chat_messages_batch, if_pos hemp]
    exact CounterOrdered.nil
  · rw [write_chat_messages_batch, if_neg hemp]
    exact write_chat_go_trace _ _ _ _ _ _
      (fun c hc => chunk_list_mem_ne_nil _ _ _ (by omega) hc)

/-- Counter updates in a `_write_chat_messages_batch` trace update only
users of the prepared messages. -/
theorem write_chat_messages_batch_counter_mem [DecidableEq υ] (doc_id : Nat → String)
    (thread_store : (υ × String) → Bool)
    (prepared : List (UserChatTask υ × MessageData))
    (content_commit : Nat → Option PyErr) (counter_commit : Nat → Bool)
    (u : List υ) (k : Bool)
    (hmem : WEvent.counterUpdate u k ∈
      (write_chat_messages_batch doc_id thread_store prepared content_commit
        counter_commit).2)
    (x : υ) (hx : x ∈ u) :
    ∃ tc, tc ∈ prepared ∧ tc.1.user_id = x := by
  by_cases hemp : prepared.isEmpty
  · rw [write_chat_messages_batch, if_pos hemp] at hmem
    simp at hmem
  · rw [write_chat_messages_batch, if_neg hemp] at hmem
    obtain ⟨c, hc, hu⟩ := write_chat_go_counter_mem doc_id thread_store content_commit
      counter_commit (chunk_list prepared 250) 0 u k hmem
    rw [hu] at hx
    obtain ⟨tc, htc, hxeq⟩ := List.mem_map.mp hx
    exact ⟨tc, chunk_list_subset prepared 250 c (by omega) hc htc, hxeq⟩

/-- The result and content-commit events of `_write_chat_messages_batch`
do not depend on the counter-update oracle. -/
theorem write_chat_messages_batch_kc [DecidableEq υ] (doc_id : Nat → String)
    (thread_store : (υ × String) → Bool)
    (prepared : List (UserChatTask υ × MessageData))
    (content_commit : Nat → Option PyErr) (kc kc' : Nat → Bool) :
    (write_chat_messages_batch doc_id thread_store prepared content_commit kc).1 =
      (write_chat_messages_batch doc_id thread_store prepared content_commit kc').1 ∧
    (write_chat_messages_batch doc_id thread_store prepared content_commit kc).2.filter
      is_content_commit =
    (write_chat_messages_batch doc_id thread_store prepared content_commit kc').2.filter
      is_content_commit := by
  by_cases hemp : prepared.isEmpty
  · rw [write_chat_messages_batch, write_chat_messages_batch, if_pos hemp, if_pos hemp]
    exact ⟨rfl, rfl⟩
  · rw [write_chat_messages_batch, write_chat_messages_batch, if_neg hemp, if_neg hemp]
    exact write_chat_go_kc _ _ _ _ _ _ _

/-- The chat write phase conserves users. -/
theorem chat_write_phase_users [DecidableEq υ] (doc_id : Nat → String)
    (thread_store : (υ × String) → Bool)
    (prepared : List (UserChatTask υ × MessageData))
    (content_commit : Nat → Option PyErr) (counter_commit : Nat → Bool) :
    ((chat_write_phase doc_id thread_store prepared content_commit counter_commit).1.1.map
      fun g => g.user_id) ++
    ((chat_write_phase doc_id thread_store prepared content_commit counter_commit).1.2.map
      fun f => f.user_id) =
    prepared.map fun tc => tc.1.user_id := by
  by_cases hemp : prepared.isEmpty
  · rw [chat_write_phase, if_pos hemp]
    rcases prepared with _ | ⟨tc, rest⟩
    · rfl
    · simp at hemp
  · rcases hw : write_chat_messages_batch doc_id thread_store prepared content_commit
      counter_commit with ⟨res, evs⟩
    have hw1 : (write_chat_messages_batch doc_id thread_store prepared content_commit
        counter_commit).1 = res := congrArg Prod.fst hw
    rcases res with e | w
    · rw [chat_write_phase, if_neg hemp, hw]
      simp [List.map_map, Function.comp]
    · rw [chat_write_phase, if_neg hemp, hw]
      simp [write_chat_messages_batch_ok_users doc_id thread_store prepared
        content_commit counter_commit w hw1]

/-- The trace of the chat write phase is counter-ordered. -/
theorem chat_write_phase_trace [DecidableEq υ] (doc_id : Nat → String)
    (thread_store : (υ × String) → Bool)
    (prepared : List (UserChatTask υ × MessageData))
    (content_commit : Nat → Option PyErr) (counter_commit : Nat → Bool) :
    CounterOrdered (chat_write_phase doc_id thread_store prepared content_commit
      counter_commit).2 := by
  by_cases hemp : prepared.isEmpty
  · rw [chat_write_phase, if_pos hemp]
    exact CounterOrdered.nil
  · have := write_chat_messages_batch_trace doc_id thread_store prepared
      content_commit counter_commit
    rcases hw : write_chat_messages_batch doc_id thread_store prepared content_commit
      counter_commit with ⟨res, evs⟩
    rw [hw] at this
    rcases res with e | w <;> rw [chat_write_phase, if_neg hemp, hw] <;> exact this

/-- Counter updates in the chat write phase touch only users handed to
the writer. -/
theorem chat_write_phase_counter_mem [DecidableEq υ] (doc_id : Nat → String)
    (thread_store : (υ × String) → Bool)
    (prepared : List (UserChatTask υ × MessageData))
    (content_commit : Nat → Option PyErr) (counter_commit : Nat → Bool)
    (u : List υ) (k : Bool)
    (hmem : WEvent.counterUpdate u k ∈
      (chat_write_phase doc_id thread_store prepared content_commit counter_commit).2)
    (x : υ) (hx : x ∈ u) :
    ∃ tc, tc ∈ prepared ∧ tc.1.user_id = x := by
  by_cases hemp : prepared.isEmpty
  · rw [chat_write_phase, if_pos hemp] at hmem
    simp at hmem
  · have hkey := write_chat_messages_batch_counter_mem doc_id thread_store prepared
      content_commit counter_commit u k
    rcases hw : write_chat_messages_batch doc_id thread_store prepared content_commit
      counter_commit with ⟨res, evs⟩
    rw [hw] at hkey
    rcases res with e | w <;> rw [chat_write_phase, if_neg hemp, hw] at hmem <;>
      exact hkey hmem x hx

/-- The chat write phase's outcome and content-commit events do not
depend on the counter-update oracle. -/
theorem chat_write_phase_kc [DecidableEq υ] (doc_id : Nat → String)
    (thread_store : (υ × String) → Bool)
    (prepared : List (UserChatTask υ × MessageData))
    (content_commit : Nat → Option PyErr) (kc kc' : Nat → Bool) :
    (chat_write_phase doc_id thread_store prepared content_commit kc).1 =
      (chat_write_phase doc_id thread_store prepared content_commit kc').1 ∧
    (chat_write_phase doc_id thread_store prepared content_commit kc).2.filter
      is_content_commit =
    (chat_write_phase doc_id thread_store prepared content_commit kc').2.filter
      is_content_commit := by
  by_cases hemp : prepared.isEmpty
  · rw [chat_write_phase, chat_write_phase, if_pos hemp, if_pos hemp]
    exact ⟨rfl, rfl⟩
  · obtain ⟨h1, h2⟩ := write_chat_messages_batch_kc doc_id thread_store prepared
      content_commit kc kc'
    rcases hw : write_chat_messages_batch doc_id thread_store prepared content_commit kc
      with ⟨res, evs⟩
    rcases hw' : write_chat_messages_batch doc_id thread_store prepared content_commit kc'
      with ⟨res', evs'⟩
    rw [hw, hw'] at h1 h2
    simp only at h1 h2
    subst h1
    rcases res with e | w <;>
      rw [chat_write_phase, chat_write_phase, if_neg hemp, if_neg hemp, hw, hw'] <;>
      exact ⟨rfl, h2⟩

/-- When every content commit succeeds, the chat write phase reports no
failures and returns records for exactly the users handed to it. -/
theorem chat_write_phase_all_ok [DecidableEq υ] (doc_id : Nat → String)
    (thread_store : (υ × String) → Bool)
    (prepared : List (UserChatTask υ × MessageData))
    (content_commit : Nat → Option PyErr) (counter_commit : Nat → Bool)
    (hcc : ∀ j, content_commit j = none) :
    (chat_write_phase doc_id thread_store prepared content_commit counter_commit).1.2 = [] ∧
    (chat_write_phase doc_id thread_store prepared content_commit counter_commit).1.1.map
      (fun g => g.user_id) = prepared.map fun tc => tc.1.user_id := by
  by_cases hemp : prepared.isEmpty
  · rw [chat_write_phase, if_pos hemp]
    rcases prepared with _ | ⟨tc, rest⟩
    · exact ⟨rfl, rfl⟩
    · simp at hemp
  · have hok : (write_chat_messages_batch doc_id thread_store prepared content_commit
        counter_commit).1 = Except.ok (((chunk_list prepared 250).map
          fun c => (chat_chunk_build doc_id c thread_store 0).2).flatten) := by
      rw [write_chat_messages_batch, if_neg hemp]
      exact write_chat_go_all_ok doc_id thread_store content_commit counter_commit hcc _ 0
    rcases hw : write_chat_messages_batch doc_id thread_store prepared content_commit
      counter_commit with ⟨res, evs⟩
    rw [hw] at hok
    simp only at hok
    subst hok
    rw [chat_write_phase, if_neg hemp, hw]
    refine ⟨rfl, ?_⟩
    have hw1 : (write_chat_messages_batch doc_id thread_store prepared content_commit
        counter_commit).1 = Except.ok (((chunk_list prepared 250).map
          fun c => (chat_chunk_build doc_id c thread_store 0).2).flatten) := by rw [hw]
    exact write_chat_messages_batch_ok_users doc_id thread_store prepared content_commit
      counter_commit _ hw1

/-- Across the chat batch loop, the success and failure lists together
hold exactly the users of all submitted tasks (as a multiset). -/
theorem run_chat_batches_users [ToString υ] [DecidableEq υ] (env : ChatGenEnv υ)
    (doc_id : Nat → String) (thread_store : (υ × String) → Bool)
    (reorder : Nat → List (UserChatTask υ) → List (UserChatTask υ))
    (content_commit : Nat → Nat → Option PyErr) (counter_commit : Nat → Nat → Bool)
    (batches : List (List (UserChatTask υ))) (i : Nat)
    (hperm : ∀ j b, batches.get? j = some b → (reorder (i + j) b).Perm b) :
    (((run_chat_batches env doc_id thread_store reorder content_commit counter_commit
      batches i).1.1.map fun g => g.user_id : List υ) : Multiset υ) +
    ↑((run_chat_batches env doc_id thread_store reorder content_commit counter_commit
      batches i).1.2.map fun f => f.user_id) =
    ↑(batches.flatten.map fun t => t.user_id) := by
  induction batches generalizing i with
  | nil => rfl
  | cons b rest ih =>
    have key1 : ((((chat_write_phase doc_id thread_store
          (generate_chat_batch env (reorder i b)).1
          (content_commit i) (counter_commit i)).1.1.map fun g => g.user_id) : List υ) : Multiset υ) +
        ↑((chat_write_phase doc_id thread_store (generate_chat_batch env (reorder i b)).1
          (content_commit i) (counter_commit i)).1.2.map fun f => f.user_id) =
        ↑((generate_chat_batch env (reorder i b)).1.map fun tc => tc.1.user_id) := by
      rw [Multiset.coe_add,
        chat_write_phase_users doc_id thread_store (generate_chat_batch env (reorder i b)).1
          (content_commit i) (counter_commit i)]
    have key2 := generate_chat_batch_users env (reorder i b)
    have key3 : ((((reorder i b).map fun t => t.user_id) : List υ) : Multiset υ) =
        ↑(b.map fun t => t.user_id) :=
      Multiset.coe_eq_coe.mpr ((hperm 0 b (by simp)).map fun t => t.user_id)
    have key4 := ih (i + 1) fun j b' hj =>
      (by have := hperm (j + 1) b' (by simpa using hj)
          rwa [show i + (j + 1) = i + 1 + j by omega] at this)
    simp only [run_chat_batches, List.flatten_cons, List.map_append, ← Multiset.coe_add]
    rw [← key4, ← key3, ← key2, ← key1]
    abel

/-- The full chat batch-loop trace is counter-ordered. -/
theorem run_chat_batches_trace [ToString υ] [DecidableEq υ] (env : ChatGenEnv υ)
    (doc_id : Nat → String) (thread_store : (υ × String) → Bool)
    (reorder : Nat → List (UserChatTask υ) → List (UserChatTask υ))
    (content_commit : Nat → Nat → Option PyErr) (counter_commit : Nat → Nat → Bool)
    (batches : List (List (UserChatTask υ))) (i : Nat) :
    CounterOrdered (run_chat_batches env doc_id thread_store reorder content_commit
      counter_commit batches i).2 := by
  induction batches generalizing i with
  | nil => exact CounterOrdered.nil
  | cons b rest ih =>
    exact CounterOrdered.append _ _
      (chat_write_phase_trace doc_id thread_store _ (content_commit i) (counter_commit i))
      (ih (i + 1))

/-- Counter-update batches across the chat loop touch only users whose
task's generation succeeded. -/
theorem run_chat_batches_counter_mem [ToString υ] [DecidableEq υ] (env : ChatGenEnv υ)
    (doc_id : Nat → String) (thread_store : (υ × String) → Bool)
    (reorder : Nat → List (UserChatTask υ) → List (UserChatTask υ))
    (content_commit : Nat → Nat → Option PyErr) (counter_commit : Nat → Nat → Bool)
    (batches : List (List (UserChatTask υ))) (i : Nat)
    (hperm : ∀ j b, batches.get? j = some b → (reorder (i + j) b).Perm b)
    (u : List υ) (k : Bool)
    (hmem : WEvent.counterUpdate u k ∈
      (run_chat_batches env doc_id thread_store reorder content_commit counter_commit
        batches i).2)
    (x : υ) (hx : x ∈ u) :
    ∃ t, t ∈ batches.flatten ∧ t.user_id = x ∧
      (run_single_chat env t).isLeft = true := by
  induction batches generalizing i with
  | nil => simp [run_chat_batches] at hmem
  | cons b rest ih =>
    simp only [run_chat_batches] at hmem
    rcases List.mem_append.mp hmem with h | h
    · obtain ⟨tc, htc, hxeq⟩ := chat_write_phase_counter_mem doc_id thread_store _
        (content_commit i) (counter_commit i) u k h x hx
      obtain ⟨hm, he⟩ := generate_chat_batch_success_mem env (reorder i b) tc htc
      have hb : tc.1 ∈ b := (hperm 0 b (by simp)).mem_iff.mp hm
      exact ⟨tc.1, List.mem_flatten.mpr ⟨b, List.mem_cons_self _ _, hb⟩,
        hxeq, by rw [he]; rfl⟩
    · obtain ⟨t, hm, hxeq, hleft⟩ := ih (i + 1)
        (fun j b' hj => (by
          have := hperm (j + 1) b' (by simpa using hj)
          rwa [show i + (j + 1) = i + 1 + j by omega] at this)) h
      refine ⟨t, ?_, hxeq, hleft⟩
      obtain ⟨c, hc, htc⟩ := List.mem_flatten.mp hm
      exact List.mem_flatten.mpr ⟨c, List.mem_cons_of_mem _ hc, htc⟩

/-- The chat batch loop's aggregated result and content-commit events do
not depend on the counter-update oracle. -/
theorem run_chat_batches_kc [ToString υ] [DecidableEq υ] (env : ChatGenEnv υ)
    (doc_id : Nat → String) (thread_store : (υ × String) → Bool)
    (reorder : Nat → List (UserChatTask υ) → List (UserChatTask υ))
    (content_commit : Nat → Nat → Option PyErr) (kc kc' : Nat → Nat → Bool)
    (batches : List (List (UserChatTask υ))) (i : Nat) :
    (run_chat_batches env doc_id thread_store reorder content_commit kc batches i).1 =
      (run_chat_batches env doc_id thread_store reorder content_commit kc' batches i).1 ∧
    (run_chat_batches env doc_id thread_store reorder content_commit kc batches i).2.filter
      is_content_commit =
    (run_chat_batches env doc_id thread_store reorder content_commit kc' batches i).2.filter
      is_content_commit := by
  induction batches generalizing i with
  | nil => exact ⟨rfl, rfl⟩
  | cons b rest ih =>
    obtain ⟨ih1, ih2⟩ := ih (i + 1)
    obtain ⟨hp1, hp2⟩ := chat_write_phase_kc doc_id thread_store
      (generate_chat_batch env (reorder i b)).1 (content_commit i) (kc i) (kc' i)
    constructor
    · simp only [run_chat_batches, hp1, ih1]
    · simp only [run_chat_batches, List.filter_append, hp2, ih2]

/-- With every content commit succeeding, the chat loop's failures are
exactly the generation failures and its successes exactly the generation
successes, by user id as multisets. -/
theorem run_chat_batches_all_ok [ToString υ] [DecidableEq υ] (env : ChatGenEnv υ)
    (doc_id : Nat → String) (thread_store : (υ × String) → Bool)
    (reorder : Nat → List (UserChatTask υ) → List (UserChatTask υ))
    (content_commit : Nat → Nat → Option PyErr) (counter_commit : Nat → Nat → Bool)
    (batches : List (List (UserChatTask υ))) (i : Nat)
    (hperm : ∀ j b, batches.get? j = some b → (reorder (i + j) b).Perm b)
    (hcc : ∀ a j, content_commit a j = none) :
    (((run_chat_batches env doc_id thread_store reorder content_commit counter_commit
      batches i).1.2.map fun f => f.user_id : List υ) : Multiset υ) =
      ↑((batches.flatten.filter fun t => (run_single_chat env t).isRight).map
        fun t => t.user_id) ∧
    (((run_chat_batches env doc_id thread_store reorder content_commit counter_commit
      batches i).1.1.map fun g => g.user_id : List υ) : Multiset υ) =
      ↑((batches.flatten.filter fun t => (run_single_chat env t).isLeft).map
        fun t => t.user_id) := by
  induction batches generalizing i with
  | nil => exact ⟨rfl, rfl⟩
  | cons b rest ih =>
    have hphase := chat_write_phase_all_ok doc_id thread_store
      (generate_chat_batch env (reorder i b)).1 (content_commit i) (counter_commit i)
      (hcc i)
    obtain ⟨ihf, ihs⟩ := ih (i + 1) fun j b' hj =>
      (by have := hperm (j + 1) b' (by simpa using hj)
          rwa [show i + (j + 1) = i + 1 + j by omega] at this)
    have hpermb : (reorder i b).Perm b := hperm 0 b (by simp)
    constructor
    · have hfail : ((generate_chat_batch env (reorder i b)).2.map fun f => f.user_id) =
          ((reorder i b).filter fun t => (run_single_chat env t).isRight).map
            fun t => t.user_id :=
        generate_chat_batch_fail_users env (reorder i b)
      have hfperm : (((reorder i b).filter fun t => (run_single_chat env t).isRight) :
          List (UserChatTask υ)).Perm
          (b.filter fun t => (run_single_chat env t).isRight) :=
        hpermb.filter _
      simp only [run_chat_batches, List.flatten_cons, List.map_append,
        ← Multiset.coe_add, hphase.1, List.map_nil, List.nil_append, List.append_nil,
        List.filter_append, hfail, ihf]
      rw [Multiset.coe_eq_coe.mpr (hfperm.map fun t => t.user_id)]
    · have hsucc : ((generate_chat_batch env (reorder i b)).1.map fun tc => tc.1.user_id) =
          ((reorder i b).filter fun t => (run_single_chat env t).isLeft).map
            fun t => t.user_id := by
        have := congrArg (List.map fun t => t.user_id)
          (generate_chat_batch_success_tasks env (reorder i b))
        simpa [List.map_map, Function.comp] using this
      have hsperm : (((reorder i b).filter fun t => (run_single_chat env t).isLeft) :
          List (UserChatTask υ)).Perm
          (b.filter fun t => (run_single_chat env t).isLeft) :=
        hpermb.filter _
      simp only [run_chat_batches, List.flatten_cons, List.map_append,
        ← Multiset.coe_add, List.filter_append, hphase.2, hsucc, ihs]
      rw [Multiset.coe_eq_coe.mpr (hsperm.map fun t => t.user_id)]

/-- C7 as amended: every chunk assembled by the chat writer holds at most
250 messages and adds at most 3 operations per message — hence at most
750 operations per atomic batch, which is NOT always within the store's
500-operation ceiling — while every email chunk holds at most 500
prepared emails and adds exactly one operation each, staying within the
ceiling. -/
theorem write_batch_ops_bounded [DecidableEq υ] (doc_id : Nat → String)
    (thread_store : (υ × String) → Bool)
    (prepared_messages : List (UserChatTask υ × MessageData))
    (prepared_emails : List (UserEmailTask υ × EmailData)) :
    (∀ chunk ∈ chunk_list prepared_messages 250,
      (chat_chunk_build doc_id chunk thread_store 0).1.length ≤ 3 * chunk.length ∧
      chunk.length ≤ 250 ∧
      (chat_chunk_build doc_id chunk thread_store 0).1.length ≤ 750) ∧
    (∀ chunk ∈ chunk_list prepared_emails 500,
      (email_chunk_build doc_id chunk 0).1.length = chunk.length ∧
      chunk.length ≤ 500) := by
  constructor
  · intro chunk hc
    have h1 := chat_chunk_build_ops_le doc_id chunk thread_store 0
    have h2 := chunk_list_length_le _ _ _ hc
    exact ⟨h1, h2, by omega⟩
  · intro chunk hc
    exact ⟨email_chunk_build_ops doc_id chunk 0, chunk_list_length_le _ _ _ hc⟩

/-- Witness input for C7's amended theorem: a single prepared chat
message and a single prepared email. -/
def c7_small_chat : List (UserChatTask Nat × MessageData) :=
  [(⟨7, "tok", "ACTIVE_USER_PUSH", none⟩, ⟨"assistant", "hi", "ts"⟩)]

/-- Witness email list for C7's amended theorem. -/
def c7_small_email : List (UserEmailTask Nat × EmailData) :=
  [(⟨7, "a@b.c", "EMAIL_ONLY_USER"⟩, ⟨"a@b.c", "s", "b", "PLANNED", "ts"⟩)]

/-- Witness for C7's amended theorem evaluated on singleton chunks. -/
theorem write_batch_ops_bounded_witness :
    (chat_chunk_build (fun _ => "") c7_small_chat (fun _ => false) 0).1.length ≤ 750 ∧
    (email_chunk_build (fun _ => "") c7_small_email 0).1.length = c7_small_email.length := by
  constructor
  · exact ((write_batch_ops_bounded (fun _ => "") (fun _ => false) c7_small_chat
      c7_small_email).1 c7_small_chat (by rw [chunk_list]; exact List.mem_singleton.mpr rfl)).2.2
  · exact ((write_batch_ops_bounded (fun _ => "") (fun _ => false) c7_small_chat
      c7_small_email).2 c7_small_email (by rw [chunk_list]; exact List.mem_singleton.mpr rfl)).1

/-- Counterexample input for C7: a full chunk of 250 prepared chat
messages for 250 distinct users, none of whose `main` threads exists yet. -/
def c7_tasks : List (UserChatTask Nat × MessageData) :=
  (List.range 250).map fun i => (⟨i, "tok", "ACTIVE_USER_PUSH", none⟩, ⟨"assistant", "m", "ts"⟩)

set_option maxRecDepth 100000 in
/-- C7 counterexample: the chat writer assembles this list into a single
chunk of 250 messages, and with every target thread missing the chunk's
atomic batch holds 3 × 250 = 750 operations — beyond the store's hard
500-operation ceiling, so the claimed bound does not hold on the code. -/
theorem chat_chunk_ops_exceed_ceiling :
    chunk_list c7_tasks 250 = [c7_tasks] ∧
    (chat_chunk_build (fun _ => "") c7_tasks (fun _ => false) 0).1.length = 750 ∧
    ¬ (chat_chunk_build (fun _ => "") c7_tasks (fun _ => false) 0).1.length ≤ 500 := by
  refine ⟨rfl, rfl, by decide⟩

/-- C2: for every list of N generation tasks, under any per-batch
completion order (any permutation of each batch) and any store behavior,
the parallel runners return exactly N outcomes — the users of the final
success and failure lists together form precisely the multiset of the
submitted tasks' users, and `success_count + failure_count = total_count
= N` — so no task is ever silently dropped; and when every content
commit succeeds, the failure list holds exactly the tasks whose unit
generation raised and the success list exactly the others (in
particular, if exactly one unit raises, that unit is the one failure and
every other unit a success). -/
theorem generate_in_parallel_no_task_dropped [ToString υ] [DecidableEq υ]
    (env : EmailGenEnv υ) (cenv : ChatGenEnv υ) (doc_id : Nat → String)
    (thread_store : (υ × String) → Bool)
    (reorder : Nat → List (UserEmailTask υ) → List (UserEmailTask υ))
    (creorder : Nat → List (UserChatTask υ) → List (UserChatTask υ))
    (content_commit ccontent_commit : Nat → Nat → Option PyErr)
    (counter_commit ccounter_commit : Nat → Nat → Bool)
    (user_tasks : List (UserEmailTask υ)) (cuser_tasks : List (UserChatTask υ))
    (batch_size : Nat) :
    (0 < batch_size →
      (∀ j b, (chunk_list user_tasks batch_size).get? j = some b → (reorder j b).Perm b) →
      (generate_emails_in_parallel env doc_id reorder content_commit counter_commit
        user_tasks batch_size).1.success_count +
      (generate_emails_in_parallel env doc_id reorder content_commit counter_commit
        user_tasks batch_size).1.failure_count =
      (generate_emails_in_parallel env doc_id reorder content_commit counter_commit
        user_tasks batch_size).1.total_count ∧
      (generate_emails_in_parallel env doc_id reorder content_commit counter_commit
        user_tasks batch_size).1.total_count = user_tasks.length ∧
      ((((generate_emails_in_parallel env doc_id reorder content_commit counter_commit
        user_tasks batch_size).1.successful.map fun g => g.user_id : List υ) : Multiset υ) +
        ↑((generate_emails_in_parallel env doc_id reorder content_commit counter_commit
          user_tasks batch_size).1.failed.map fun f => f.user_id) =
        ↑(user_tasks.map fun t => t.user_id)) ∧
      ((∀ a j, content_commit a j = none) →
        ((((generate_emails_in_parallel env doc_id reorder content_commit counter_commit
          user_tasks batch_size).1.failed.map fun f => f.user_id : List υ) : Multiset υ) =
          ↑((user_tasks.filter fun t => (run_single_email env t).isRight).map
            fun t => t.user_id)) ∧
        ((((generate_emails_in_parallel env doc_id reorder content_commit counter_commit
          user_tasks batch_size).1.successful.map fun g => g.user_id : List υ) : Multiset υ) =
          ↑((user_tasks.filter fun t => (run_single_email env t).isLeft).map
            fun t => t.user_id)))) ∧
    (0 < batch_size →
      (∀ j b, (chunk_list cuser_tasks batch_size).get? j = some b → (creorder j b).Perm b) →
      (generate_chat_messages_in_parallel cenv doc_id thread_store creorder
        ccontent_commit ccounter_commit cuser_tasks batch_size).1.success_count +
      (generate_chat_messages_in_parallel cenv doc_id thread_store creorder
        ccontent_commit ccounter_commit cuser_tasks batch_size).1.failure_count =
      (generate_chat_messages_in_parallel cenv doc_id thread_store creorder
        ccontent_commit ccounter_commit cuser_tasks batch_size).1.total_count ∧
      (generate_chat_messages_in_parallel cenv doc_id thread_store creorder
        ccontent_commit ccounter_commit cuser_tasks batch_size).1.total_count =
        cuser_tasks.length ∧
      ((((generate_chat_messages_in_parallel cenv doc_id thread_store creorder
        ccontent_commit ccounter_commit cuser_tasks batch_size).1.successful.map
          fun g => g.user_id : List υ) : Multiset υ) +
        ↑((generate_chat_messages_in_parallel cenv doc_id thread_store creorder
          ccontent_commit ccounter_commit cuser_tasks batch_size).1.failed.map
            fun f => f.user_id) =
        ↑(cuser_tasks.map fun t => t.user_id)) ∧
      ((∀ a j, ccontent_commit a j = none) →
        ((((generate_chat_messages_in_parallel cenv doc_id thread_store creorder
          ccontent_commit ccounter_commit cuser_tasks batch_size).1.failed.map
            fun f => f.user_id : List υ) : Multiset υ) =
          ↑((cuser_tasks.filter fun t => (run_single_chat cenv t).isRight).map
            fun t => t.user_id)) ∧
        ((((generate_chat_messages_in_parallel cenv doc_id thread_store creorder
          ccontent_commit ccounter_commit cuser_tasks batch_size).1.successful.map
            fun g => g.user_id : List υ) : Multiset υ) =
          ↑((cuser_tasks.filter fun t => (run_single_chat cenv t).isLeft).map
            fun t => t.user_id)))) := by
  constructor
  · intro hbs hperm
    have hmain := run_email_batches_users env doc_id reorder content_commit
      counter_commit (chunk_list user_tasks batch_size) 0
      (fun j b hj => by simpa using hperm j b hj)
    rw [chunk_list_join user_tasks batch_size hbs] at hmain
    have hcard := congrArg Multiset.card hmain
    simp only [Multiset.card_add, Multiset.coe_card, List.length_map] at hcard
    refine ⟨?_, rfl, ?_, ?_⟩
    · simp only [generate_emails_in_parallel]
      exact hcard
    · simp only [generate_emails_in_parallel]
      exact hmain
    · intro hcc
      have hok := run_email_batches_all_ok env doc_id reorder content_commit
        counter_commit (chunk_list user_tasks batch_size) 0
        (fun j b hj => by simpa using hperm j b hj) hcc
      rw [chunk_list_join user_tasks batch_size hbs] at hok
      exact ⟨hok.1, hok.2⟩
  · intro hbs hperm
    have hmain := run_chat_batches_users cenv doc_id thread_store creorder
      ccontent_commit ccounter_commit (chunk_list cuser_tasks batch_size) 0
      (fun j b hj => by simpa using hperm j b hj)
    rw [chunk_list_join cuser_tasks batch_size hbs] at hmain
    have hcard := congrArg Multiset.card hmain
    simp only [Multiset.card_add, Multiset.coe_card, List.length_map] at hcard
    refine ⟨?_, rfl, ?_, ?_⟩
    · simp only [generate_chat_messages_in_parallel]
      exact hcard
    · simp only [generate_chat_messages_in_parallel]
      exact hmain
    · intro hcc
      have hok := run_chat_batches_all_ok cenv doc_id thread_store creorder
        ccontent_commit ccounter_commit (chunk_list cuser_tasks batch_size) 0
        (fun j b hj => by simpa using hperm j b hj) hcc
      rw [chunk_list_join cuser_tasks batch_size hbs] at hok
      exact ⟨hok.1, hok.2⟩

/-- C1: in every pipeline run, the store trace is counter-ordered — a
per-user counter-update batch happens only immediately after its own
chunk's content commit succeeds, never before a commit and never after a
failed one; counters are updated only for users whose task's generation
succeeded, never for failed generations; and the counter-update oracle
(in particular a failing counter batch) neither changes the pipeline's
result nor its content commits — the content write is not retried or
rolled back and the counter failure does not raise.  Both the email and
the chat pipelines are covered. -/
theorem counter_updates_only_after_commit [ToString υ] [DecidableEq υ]
    (env : EmailGenEnv υ) (cenv : ChatGenEnv υ) (doc_id : Nat → String)
    (thread_store : (υ × String) → Bool)
    (reorder : Nat → List (UserEmailTask υ) → List (UserEmailTask υ))
    (creorder : Nat → List (UserChatTask υ) → List (UserChatTask υ))
    (content_commit ccontent_commit : Nat → Nat → Option PyErr)
    (counter_commit ccounter_commit : Nat → Nat → Bool)
    (user_tasks : List (UserEmailTask υ)) (cuser_tasks : List (UserChatTask υ))
    (batch_size : Nat) :
    CounterOrdered (generate_emails_in_parallel env doc_id reorder content_commit
      counter_commit user_tasks batch_size).2 ∧
    (∀ xs u k ys,
      (generate_emails_in_parallel env doc_id reorder content_commit counter_commit
        user_tasks batch_size).2 = xs ++ WEvent.counterUpdate u k :: ys →
      ∃ i, xs.getLast? = some (WEvent.contentCommit i u true)) ∧
    (0 < batch_size →
      (∀ j b, (chunk_list user_tasks batch_size).get? j = some b → (reorder j b).Perm b) →
      ∀ u k, WEvent.counterUpdate u k ∈
        (generate_emails_in_parallel env doc_id reorder content_commit counter_commit
          user_tasks batch_size).2 →
      ∀ x ∈ u, ∃ t, t ∈ user_tasks ∧ t.user_id = x ∧
        (run_single_email env t).isLeft = true) ∧
    (∀ kc', (generate_emails_in_parallel env doc_id reorder content_commit
        counter_commit user_tasks batch_size).1 =
      (generate_emails_in_parallel env doc_id reorder content_commit kc'
        user_tasks batch_size).1 ∧
      (generate_emails_in_parallel env doc_id reorder content_commit counter_commit
        user_tasks batch_size).2.filter is_content_commit =
      (generate_emails_in_parallel env doc_id reorder content_commit kc'
        user_tasks batch_size).2.filter is_content_commit) ∧
    CounterOrdered (generate_chat_messages_in_parallel cenv doc_id thread_store
      creorder ccontent_commit ccounter_commit cuser_tasks batch_size).2 ∧
    (∀ xs u k ys,
      (generate_chat_messages_in_parallel cenv doc_id thread_store creorder
        ccontent_commit ccounter_commit cuser_tasks batch_size).2 =
        xs ++ WEvent.counterUpdate u k :: ys →
      ∃ i, xs.getLast? = some (WEvent.contentCommit i u true)) ∧
    (0 < batch_size →
      (∀ j b, (chunk_list cuser_tasks batch_size).get? j = some b → (creorder j b).Perm b) →
      ∀ u k, WEvent.counterUpdate u k ∈
        (generate_chat_messages_in_parallel cenv doc_id thread_store creorder
          ccontent_commit ccounter_commit cuser_tasks batch_size).2 →
      ∀ x ∈ u, ∃ t, t ∈ cuser_tasks ∧ t.user_id = x ∧
        (run_single_chat cenv t).isLeft = true) ∧
    (∀ kc', (generate_chat_messages_in_parallel cenv doc_id thread_store creorder
        ccontent_commit ccounter_commit cuser_tasks batch_size).1 =
      (generate_chat_messages_in_parallel cenv doc_id thread_store creorder
        ccontent_commit kc' cuser_tasks batch_size).1 ∧
      (generate_chat_messages_in_parallel cenv doc_id thread_store creorder
        ccontent_commit ccounter_commit cuser_tasks batch_size).2.filter
        is_content_commit =
      (generate_chat_messages_in_parallel cenv doc_id thread_store creorder
        ccontent_commit kc' cuser_tasks batch_size).2.filter is_content_commit) := by
  have htr : CounterOrdered (generate_emails_in_parallel env doc_id reorder
      content_commit counter_commit user_tasks batch_size).2 :=
    run_email_batches_trace env doc_id reorder content_commit counter_commit _ 0
  have ctr : CounterOrdered (generate_chat_messages_in_parallel cenv doc_id
      thread_store creorder ccontent_commit ccounter_commit cuser_tasks batch_size).2 :=
    run_chat_batches_trace cenv doc_id thread_store creorder ccontent_commit
      ccounter_commit _ 0
  refine ⟨htr, fun xs u k ys hx => htr.counter_preceded_by_commit _ xs u k ys hx,
    ?_, ?_, ctr, fun xs u k ys hx => ctr.counter_preceded_by_commit _ xs u k ys hx,
    ?_, ?_⟩
  · intro hbs hperm u k hmem x hx
    obtain ⟨t, hm, hxeq, hleft⟩ := run_email_batches_counter_mem env doc_id reorder
      content_commit counter_commit (chunk_list user_tasks batch_size) 0
      (fun j b hj => by simpa using hperm j b hj) u k hmem x hx
    rw [chunk_list_join user_tasks batch_size hbs] at hm
    exact ⟨t, hm, hxeq, hleft⟩
  · intro kc'
    obtain ⟨h1, h2⟩ := run_email_batches_kc env doc_id reorder content_commit
      counter_commit kc' (chunk_list user_tasks batch_size) 0
    constructor
    · simp only [generate_emails_in_parallel, h1]
    · exact h2
  · intro hbs hperm u k hmem x hx
    obtain ⟨t, hm, hxeq, hleft⟩ := run_chat_batches_counter_mem cenv doc_id
      thread_store creorder ccontent_commit ccounter_commit
      (chunk_list cuser_tasks batch_size) 0
      (fun j b hj => by simpa using hperm j b hj) u k hmem x hx
    rw [chunk_list_join cuser_tasks batch_size hbs] at hm
    exact ⟨t, hm, hxeq, hleft⟩
  · intro kc'
    obtain ⟨h1, h2⟩ := run_chat_batches_kc cenv doc_id thread_store creorder
      ccontent_commit ccounter_commit kc' (chunk_list cuser_tasks batch_size) 0
    constructor
    · simp only [generate_chat_messages_in_parallel, h1]
    · exact h2

/-- C6 as amended: when the email persistence writer processes three
chunks and the third chunk's content commit fails after the first two
committed, the two prior chunks' counters are updated exactly once each
(the trace is exactly: commit 0, counter 0, commit 1, counter 1, failed
commit 2 — no retries, no rollbacks); the failed chunk's users appear in
the failure list and nothing appears in the success list; but — contrary
to the original claim — the caller reclassifies EVERY task handed to the
writer as failed, the two previously committed chunks' tasks included. -/
theorem email_write_phase_three_chunks (doc_id : Nat → String)
    (prepared : List (UserEmailTask υ × EmailData))
    (c0 c1 c2 : List (UserEmailTask υ × EmailData))
    (content_commit : Nat → Option PyErr) (counter_commit : Nat → Bool) (e : PyErr)
    (hch : chunk_list prepared 500 = [c0, c1, c2])
    (h0 : content_commit 0 = none) (h1 : content_commit 1 = none)
    (h2 : content_commit 2 = some e)
    (k0 : counter_commit 0 = true) (k1 : counter_commit 1 = true) :
    (email_write_phase doc_id prepared content_commit counter_commit).2 =
      [WEvent.contentCommit 0 (c0.map fun tc => tc.1.user_id) true,
       WEvent.counterUpdate (c0.map fun tc => tc.1.user_id) true,
       WEvent.contentCommit 1 (c1.map fun tc => tc.1.user_id) true,
       WEvent.counterUpdate (c1.map fun tc => tc.1.user_id) true,
       WEvent.contentCommit 2 (c2.map fun tc => tc.1.user_id) false] ∧
    (email_write_phase doc_id prepared content_commit counter_commit).1.1 = [] ∧
    ((email_write_phase doc_id prepared content_commit counter_commit).1.2.map
      fun f => f.user_id) = prepared.map (fun tc => tc.1.user_id) ∧
    ∀ tc ∈ c2, tc.1.user_id ∈
      ((email_write_phase doc_id prepared content_commit counter_commit).1.2.map
        fun f => f.user_id) := by
  have hne0 : c0 ≠ [] :=
    chunk_list_mem_ne_nil prepared 500 c0 (by omega) (by rw [hch]; simp)
  have hne1 : c1 ≠ [] :=
    chunk_list_mem_ne_nil prepared 500 c1 (by omega) (by rw [hch]; simp)
  have hpne : prepared.isEmpty = false := by
    rcases prepared with _ | ⟨a, t⟩
    · exact absurd hch (by simp [chunk_list, chunk_list_go])
    · rfl
  have hie0 : (c0.map fun tc => tc.1.user_id).isEmpty = false := by
    rcases c0 with _ | ⟨a, t⟩
    · exact absurd rfl hne0
    · rfl
  have hie1 : (c1.map fun tc => tc.1.user_id).isEmpty = false := by
    rcases c1 with _ | ⟨a, t⟩
    · exact absurd rfl hne1
    · rfl
  have hw : write_emails_batch doc_id prepared content_commit counter_commit =
      (Except.error e,
       [WEvent.contentCommit 0 (c0.map fun tc => tc.1.user_id) true,
        WEvent.counterUpdate (c0.map fun tc => tc.1.user_id) true,
        WEvent.contentCommit 1 (c1.map fun tc => tc.1.user_id) true,
        WEvent.counterUpdate (c1.map fun tc => tc.1.user_id) true,
        WEvent.contentCommit 2 (c2.map fun tc => tc.1.user_id) false]) := by
    rw [write_emails_batch, if_neg (by simp [hpne]), hch]
    simp only [write_emails_batch_go, h0, h1, h2,
      update_notification_counters_for_chunk, hie0, hie1, k0, k1, Except.map,
      Bool.false_eq_true, if_false, List.singleton_append, List.cons_append,
      List.nil_append]
  rw [email_write_phase, if_neg (by simp [hpne]), hw]
  refine ⟨rfl, rfl, by simp [List.map_map, Function.comp], ?_⟩
  intro tc htc
  have hsub : tc ∈ prepared :=
    chunk_list_subset prepared 500 c2 (by omega) (by rw [hch]; simp) htc
  simp only [List.map_map]
  exact List.mem_map.mpr ⟨tc, hsub, rfl⟩

/-- Counterexample input for C6: 1001 prepared emails for users 0..1000,
which the writer splits into chunks of 500, 500 and 1. -/
def c6_prepared : List (UserEmailTask Nat × EmailData) :=
  (List.range 1001).map fun i =>
    (⟨i, "u@example.com", "EMAIL_ONLY_USER"⟩, ⟨"u@example.com", "s", "b", "PLANNED", "ts"⟩)

/-- Store behavior for the C6 scenario: the third content chunk's commit
raises, every other operation succeeds. -/
def c6_content_commit : Nat → Option PyErr :=
  fun i => if i = 2 then some "unavailable" else none

/-- Counter-update batches all succeed in the C6 scenario. -/
def c6_counter_commit : Nat → Bool := fun _ => true

set_option maxRecDepth 100000 in
/-- C6 counterexample: with two chunks committed and the third chunk's
commit failing, the run's first trace event is the SUCCESSFUL content
commit of a chunk containing user 0 — yet user 0 still appears in the
failure list, so tasks of previously committed chunks ARE reclassified
as failed, contradicting the claim as stated. -/
theorem email_write_phase_prior_chunk_marked_failed :
    ((email_write_phase (fun _ => "") c6_prepared c6_content_commit
      c6_counter_commit).2.take 1).countP
      (fun ev => match ev with
        | WEvent.contentCommit _ us true => us.contains 0
        | _ => false) = 1 ∧
    ((email_write_phase (fun _ => "") c6_prepared c6_content_commit
      c6_counter_commit).1.2.map fun f => f.user_id).contains 0 = true := by
  exact ⟨rfl, rfl⟩

set_option maxRecDepth 100000 in
/-- Witness for C6's amended theorem: the 1001-task store scenario
evaluated concretely — the writer's chunking is exactly three chunks and
the success list comes back empty. -/
theorem email_write_phase_three_chunks_witness :
    chunk_list c6_prepared 500 = [c6_prepared.take 500,
      (c6_prepared.drop 500).take 500, ((c6_prepared.drop 500).drop 500).take 500] ∧
    (email_write_phase (fun _ => "") c6_prepared c6_content_commit
      c6_counter_commit).1.1 = [] := by
  have hch : chunk_list c6_prepared 500 = [c6_prepared.take 500,
      (c6_prepared.drop 500).take 500, ((c6_prepared.drop 500).drop 500).take 500] := rfl
  exact ⟨hch, (email_write_phase_three_chunks (fun _ => "") c6_prepared
    (c6_prepared.take 500) ((c6_prepared.drop 500).take 500)
    (((c6_prepared.drop 500).drop 500).take 500) c6_content_commit c6_counter_commit
    "unavailable" hch rfl rfl rfl rfl rfl).2.1⟩

end BossApp
